import Mathlib

/-!
# KATO Dashboard — hybrid pattern repository: shallow embedding

This file embeds the data layer of the KATO dashboard backend
(`app/db/clickhouse.py`, `app/db/redis_client.py`, `app/db/hybrid_patterns.py`,
`app/db/symbol_stats.py`, `app/services/hierarchy_analysis.py`,
`app/api/routes.py` update handler) and proves/refutes the specified properties.

Modelling conventions:
* The two physical stores are explicit state: a list of columnar rows
  (ClickHouse `kato.patterns_data`) and an association list keyed by Redis key
  strings.  Redis holds strings; values written by this code base are either
  `str(int)` (frequency) or `json.dumps(...)` (emotives/metadata), so the model
  tags stored values by that shape (`RVal`).
* Python's `sorted(key=..., reverse=...)` is a stable sort; it is modelled by a
  structural insertion sort `sortLe` (stable sorts with the same key agree).
  ClickHouse `ORDER BY` ties have no guaranteed order; the model determinises
  them by the same stable sort over stored row order.
* Store faults (connection errors / raised store calls) are modelled by
  explicit Boolean fault flags on the operations that catch them.
* `settings.database_read_only` is read by every mutation guard, but the
  `Settings` model declares no such field, so the attribute access raises
  `AttributeError` (pydantic models reject undeclared attributes).  Each
  mutating operation is therefore embedded as a `*_checked` function — the
  function as actually written, which performs that attribute access and so
  raises on every call — whose post-guard dual-store logic is split out as a
  `*_body` definition.  The `*_body` definitions are dead code in the program
  (the guard raises before they can run); their `ro` parameter is the Boolean
  the guard would have tested.  No theorem about reachable behaviour uses a
  `*_body` definition directly.
-/

namespace KatoDash

/-! ## Stable sort (model of Python `sorted` and of determinised `ORDER BY`) -/

/-- Insert `x` before the first element `y` with `le x y`.  With `le` a
(non-strict) key comparison this is the insertion step of a stable sort. -/
def insertLe {α : Type} (le : α → α → Bool) (x : α) : List α → List α
  | [] => [x]
  | y :: ys => if le x y then x :: y :: ys else y :: insertLe le x ys

/-- Stable insertion sort: elements comparing equal keep their input order. -/
def sortLe {α : Type} (le : α → α → Bool) : List α → List α
  | [] => []
  | x :: xs => insertLe le x (sortLe le xs)

theorem insertLe_perm {α : Type} (le : α → α → Bool) (x : α) :
    ∀ l : List α, List.Perm (insertLe le x l) (x :: l)
  | [] => List.Perm.refl _
  | y :: ys => by
    unfold insertLe
    by_cases h : le x y
    · simp [h]
    · simp only [h, if_neg]
      exact (List.Perm.cons y (insertLe_perm le x ys)).trans (List.Perm.swap x y ys)

theorem sortLe_perm {α : Type} (le : α → α → Bool) :
    ∀ l : List α, List.Perm (sortLe le l) l
  | [] => List.Perm.refl _
  | x :: xs => (insertLe_perm le x (sortLe le xs)).trans
      (List.Perm.cons x (sortLe_perm le xs))

theorem mem_insertLe {α : Type} {le : α → α → Bool} {x a : α} {l : List α} :
    a ∈ insertLe le x l ↔ a = x ∨ a ∈ l := by
  constructor
  · intro h
    have := (insertLe_perm le x l).mem_iff.mp h
    simpa using this
  · intro h
    apply (insertLe_perm le x l).mem_iff.mpr
    simpa using h

theorem mem_sortLe {α : Type} {le : α → α → Bool} {a : α} {l : List α} :
    a ∈ sortLe le l ↔ a ∈ l :=
  (sortLe_perm le l).mem_iff

theorem pairwise_insertLe {α : Type} {le : α → α → Bool}
    (htot : ∀ a b, le a b = false → le b a = true)
    (htrans : ∀ a b c, le a b = true → le b c = true → le a c = true)
    (x : α) : ∀ {l : List α}, l.Pairwise (fun a b => le a b = true) →
      (insertLe le x l).Pairwise (fun a b => le a b = true)
  | [], _ => by simp [insertLe]
  | y :: ys, h => by
    rcases List.pairwise_cons.mp h with ⟨hy, hys⟩
    unfold insertLe
    by_cases hxy : le x y
    · simp only [hxy, if_pos]
      refine List.pairwise_cons.mpr ⟨?_, h⟩
      intro z hz
      rcases List.mem_cons.mp hz with rfl | hz
      · exact hxy
      · exact htrans x y z hxy (hy z hz)
    · simp only [hxy, if_neg]
      refine List.pairwise_cons.mpr ⟨?_, pairwise_insertLe htot htrans x hys⟩
      intro z hz
      rcases mem_insertLe.mp hz with rfl | hz
      · exact htot z y (by simpa using hxy)
      · exact hy z hz

theorem sortLe_sorted {α : Type} {le : α → α → Bool}
    (htot : ∀ a b, le a b = false → le b a = true)
    (htrans : ∀ a b c, le a b = true → le b c = true → le a c = true) :
    ∀ l : List α, (sortLe le l).Pairwise (fun a b => le a b = true)
  | [] => by simp [sortLe]
  | x :: xs => pairwise_insertLe htot htrans x (sortLe_sorted htot htrans xs)

/-! ## Python string primitives

Lean core's `String` order/search functions are byte- and iterator-based and
defined by well-founded recursion, which blocks kernel evaluation; the Python
string operations the source uses are therefore modelled directly over the
character list, with Python semantics. -/

/-- Python `str.startswith(pre)`. -/
def pyStartsWith (s pre : String) : Bool := pre.data.isPrefixOf s.data

/-- Python slicing `s[n:]` (character positions). -/
def pyDrop (s : String) (n : Nat) : String := ⟨s.data.drop n⟩

/-- Python slicing `s[:n]`. -/
def pyTake (s : String) (n : Nat) : String := ⟨s.data.take n⟩

/-- Python `s.split('_')[0]`: the prefix before the first underscore. -/
def pySplitHeadUnderscore (s : String) : String :=
  ⟨s.data.takeWhile (fun c => !(c == '_'))⟩

/-- Python `s.replace('node', '')`: removes every (non-overlapping, scanned
left to right) occurrence of `"node"`. -/
def pyRemoveNode : List Char → List Char
  | 'n' :: 'o' :: 'd' :: 'e' :: rest => pyRemoveNode rest
  | c :: rest => c :: pyRemoveNode rest
  | [] => []

/-- Digit-run accumulator for `int(s)`. -/
def digitsToNat : List Char → Nat → Option Nat
  | [], acc => some acc
  | c :: rest, acc =>
    if c.isDigit then digitsToNat rest (acc * 10 + (c.toNat - 48)) else none

/-- A non-empty run of decimal digits. -/
def pyToIntAux (l : List Char) : Option Nat :=
  if l.isEmpty then none else digitsToNat l 0

/-- Python `int(s)`: optional sign followed by digits; anything else raises
`ValueError` (modelled as `none`). -/
def pyToInt (s : String) : Option Int :=
  match s.data with
  | '-' :: rest => (pyToIntAux rest).map (fun n => -(n : Int))
  | '+' :: rest => (pyToIntAux rest).map (fun n => (n : Int))
  | l => (pyToIntAux l).map (fun n => (n : Int))

/-- Lexicographic strict order on character lists (Python string `<`). -/
def strLtB : List Char → List Char → Bool
  | [], [] => false
  | [], _ :: _ => true
  | _ :: _, [] => false
  | a :: as, b :: bs =>
    if a < b then true else if b < a then false else strLtB as bs

/-- Python string `<=`. -/
def strLeB (a b : String) : Bool := !strLtB b.data a.data

theorem strLtB_asymm : ∀ {x y : List Char},
    strLtB x y = true → strLtB y x = false
  | [], [] => by simp [strLtB]
  | [], _ :: _ => fun _ => rfl
  | _ :: _, [] => by simp [strLtB]
  | a :: as, b :: bs => by
    unfold strLtB
    intro h
    by_cases hab : a < b
    · rw [if_neg (lt_asymm hab), if_pos hab]
    · by_cases hba : b < a
      · rw [if_neg hab, if_pos hba] at h
        exact absurd h (by simp)
      · rw [if_neg hab, if_neg hba] at h
        rw [if_neg hba, if_neg hab]
        exact strLtB_asymm h

theorem strLtB_eq_of_not : ∀ {x y : List Char},
    strLtB x y = false → strLtB y x = false → x = y
  | [], [] => fun _ _ => rfl
  | [], _ :: _ => by simp [strLtB]
  | _ :: _, [] => by simp [strLtB]
  | a :: as, b :: bs => by
    unfold strLtB
    intro h1 h2
    by_cases hab : a < b
    · rw [if_pos hab] at h1
      exact absurd h1 (by simp)
    · by_cases hba : b < a
      · rw [if_pos hba] at h2
        exact absurd h2 (by simp)
      · rw [if_neg hab, if_neg hba] at h1
        rw [if_neg hba, if_neg hab] at h2
        have hcc : a = b := le_antisymm (le_of_not_lt hba) (le_of_not_lt hab)
        rw [hcc, strLtB_eq_of_not h1 h2]

theorem strLtB_trans : ∀ {x y z : List Char},
    strLtB x y = true → strLtB y z = true → strLtB x z = true
  | [], [], _ => by simp [strLtB]
  | _ :: _, [], _ => by simp [strLtB]
  | [], _ :: _, [] => by simp [strLtB]
  | [], _ :: _, _ :: _ => fun _ _ => rfl
  | _ :: _, _ :: _, [] => by simp [strLtB]
  | a :: as, b :: bs, c :: cs => by
    unfold strLtB
    intro h1 h2
    by_cases hab : a < b
    · by_cases hbc : b < c
      · rw [if_pos (lt_trans hab hbc)]
      · by_cases hcb : c < b
        · rw [if_neg hbc, if_pos hcb] at h2
          exact absurd h2 (by simp)
        · have hbceq : b = c := le_antisymm (le_of_not_lt hcb) (le_of_not_lt hbc)
          rw [if_pos (show a < c from hbceq ▸ hab)]
    · by_cases hba : b < a
      · rw [if_neg hab, if_pos hba] at h1
        exact absurd h1 (by simp)
      · have habeq : a = b := le_antisymm (le_of_not_lt hba) (le_of_not_lt hab)
        by_cases hbc : b < c
        · rw [if_pos (show a < c by rw [habeq]; exact hbc)]
        · by_cases hcb : c < b
          · rw [if_neg hbc, if_pos hcb] at h2
            exact absurd h2 (by simp)
          · rw [if_neg hab, if_neg hba] at h1
            rw [if_neg hbc, if_neg hcb] at h2
            have hac : ¬a < c := by rw [habeq]; exact hbc
            have hca : ¬c < a := by rw [habeq]; exact hcb
            rw [if_neg hac, if_neg hca]
            exact strLtB_trans h1 h2

theorem strLeB_total : ∀ a b : String, strLeB a b = false → strLeB b a = true := by
  intro a b h
  have h1 : strLtB b.data a.data = true := by
    simpa [strLeB] using h
  simp [strLeB, strLtB_asymm h1]

theorem strLeB_trans : ∀ a b c : String,
    strLeB a b = true → strLeB b c = true → strLeB a c = true := by
  intro a b c h1 h2
  have h1 : strLtB b.data a.data = false := by simpa [strLeB] using h1
  have h2 : strLtB c.data b.data = false := by simpa [strLeB] using h2
  suffices h : strLtB c.data a.data = false by simpa [strLeB] using h
  by_contra hca
  have hca : strLtB c.data a.data = true := by simpa using hca
  cases hbc : strLtB b.data c.data with
  | true => exact absurd (strLtB_trans hbc hca) (by simp [h1])
  | false =>
    have : b.data = c.data := strLtB_eq_of_not hbc h2
    rw [← this] at hca
    exact absurd hca (by simp [h1])

/-- Descending key order with an explicit secondary tie-break relation: the
order a stable descending sort realises when the input is sorted by the
secondary relation. -/
def lexDesc {α : Type} (f : α → Int) (R : α → α → Prop) (a b : α) : Prop :=
  f b < f a ∨ (f a = f b ∧ R a b)

/-- Ascending key order with an explicit secondary tie-break relation. -/
def lexAsc {α : Type} (f : α → Int) (R : α → α → Prop) (a b : α) : Prop :=
  f a < f b ∨ (f a = f b ∧ R a b)

theorem insertLe_lex_desc {α : Type} (f : α → Int) (R : α → α → Prop) (x : α) :
    ∀ {l : List α}, l.Pairwise (lexDesc f R) → (∀ y ∈ l, R x y) →
      (insertLe (fun a b => decide (f b ≤ f a)) x l).Pairwise (lexDesc f R)
  | [], _, _ => by simp [insertLe, List.pairwise_cons]
  | y :: ys, h, hx => by
    rcases List.pairwise_cons.mp h with ⟨hy, hys⟩
    unfold insertLe
    by_cases hxy : f y ≤ f x
    · rw [if_pos (decide_eq_true hxy)]
      refine List.pairwise_cons.mpr ⟨?_, h⟩
      intro z hz
      rcases List.mem_cons.mp hz with rfl | hz
      · rcases lt_or_eq_of_le hxy with hlt | heq
        · exact Or.inl hlt
        · exact Or.inr ⟨heq.symm, hx _ (List.mem_cons_self _ _)⟩
      · rcases hy z hz with hlt | ⟨heq, _⟩
        · exact Or.inl (lt_of_lt_of_le hlt hxy)
        · rcases lt_or_eq_of_le hxy with hlt | heq2
          · exact Or.inl (heq ▸ hlt)
          · exact Or.inr ⟨heq2.symm.trans heq, hx z (List.mem_cons_of_mem y hz)⟩
    · rw [if_neg (by simp [hxy])]
      have hx' : ∀ z ∈ ys, R x z := fun z hz => hx z (List.mem_cons_of_mem y hz)
      refine List.pairwise_cons.mpr ⟨?_, insertLe_lex_desc f R x hys hx'⟩
      intro z hz
      rcases mem_insertLe.mp hz with rfl | hz
      · exact Or.inl (lt_of_not_le hxy)
      · exact hy z hz

theorem sortLe_lex_desc {α : Type} (f : α → Int) (R : α → α → Prop) :
    ∀ {l : List α}, l.Pairwise R →
      (sortLe (fun a b => decide (f b ≤ f a)) l).Pairwise (lexDesc f R)
  | [], _ => by simp [sortLe]
  | x :: xs, h => by
    rcases List.pairwise_cons.mp h with ⟨hx, hxs⟩
    exact insertLe_lex_desc f R x (sortLe_lex_desc f R hxs)
      (fun y hy => hx y (mem_sortLe.mp hy))

theorem insertLe_lex_asc {α : Type} (f : α → Int) (R : α → α → Prop) (x : α) :
    ∀ {l : List α}, l.Pairwise (lexAsc f R) → (∀ y ∈ l, R x y) →
      (insertLe (fun a b => decide (f a ≤ f b)) x l).Pairwise (lexAsc f R)
  | [], _, _ => by simp [insertLe, List.pairwise_cons]
  | y :: ys, h, hx => by
    rcases List.pairwise_cons.mp h with ⟨hy, hys⟩
    unfold insertLe
    by_cases hxy : f x ≤ f y
    · rw [if_pos (decide_eq_true hxy)]
      refine List.pairwise_cons.mpr ⟨?_, h⟩
      intro z hz
      rcases List.mem_cons.mp hz with rfl | hz
      · rcases lt_or_eq_of_le hxy with hlt | heq
        · exact Or.inl hlt
        · exact Or.inr ⟨heq, hx _ (List.mem_cons_self _ _)⟩
      · rcases hy z hz with hlt | ⟨heq, _⟩
        · exact Or.inl (lt_of_le_of_lt hxy hlt)
        · rcases lt_or_eq_of_le hxy with hlt | heq2
          · exact Or.inl (heq ▸ hlt)
          · exact Or.inr ⟨heq2.trans heq, hx z (List.mem_cons_of_mem y hz)⟩
    · rw [if_neg (by simp [hxy])]
      have hx' : ∀ z ∈ ys, R x z := fun z hz => hx z (List.mem_cons_of_mem y hz)
      refine List.pairwise_cons.mpr ⟨?_, insertLe_lex_asc f R x hys hx'⟩
      intro z hz
      rcases mem_insertLe.mp hz with rfl | hz
      · exact Or.inl (lt_of_not_le hxy)
      · exact hy z hz

theorem sortLe_lex_asc {α : Type} (f : α → Int) (R : α → α → Prop) :
    ∀ {l : List α}, l.Pairwise R →
      (sortLe (fun a b => decide (f a ≤ f b)) l).Pairwise (lexAsc f R)
  | [], _ => by simp [sortLe]
  | x :: xs, h => by
    rcases List.pairwise_cons.mp h with ⟨hx, hxs⟩
    exact insertLe_lex_asc f R x (sortLe_lex_asc f R hxs)
      (fun y hy => hx y (mem_sortLe.mp hy))

/-! ## Values

JSON values as stored/parsed by `json.dumps` / `json.loads`.  JSON integers
and non-integer numbers are separate constructors because Python `int(s)`
succeeds on the serialisation of the former and fails on the latter. -/

inductive Json : Type where
  | null : Json
  | bool : Bool → Json
  | numI : Int → Json
  | numF : ℚ → Json
  | str : String → Json
  | arr : List Json → Json
  | obj : List (String × Json) → Json

/-- A Redis value (Redis stores strings; this code base writes either
`str(int)` for frequencies or `json.dumps(v)` for emotives/metadata, and both
serialisations are injective, so values are tagged by shape). -/
inductive RVal : Type where
  | int : Int → RVal
  | json : Json → RVal

/-- Python `int(s)` applied to the stored string: succeeds exactly on decimal
integer literals — `str(n)`, or `json.dumps` of a JSON integer. -/
def rvToInt : RVal → Option Int
  | .int n => some n
  | .json (.numI n) => some n
  | .json _ => none

/-! ## Store state -/

/-- One row of the ClickHouse table `kato.patterns_data`
(`created_at`/`updated_at` datetimes are carried in their rendered ISO form;
the Python side only passes them through `isoformat()`). -/
structure ChPat where
  kb_id : String
  name : String
  pattern_data : List (List String)
  length : Nat
  token_set : List String
  token_count : Nat
  minhash_sig : List Nat
  lsh_bands : List String
  first_token : String
  last_token : String
  created_at : Option String
  updated_at : Option String
deriving DecidableEq

/-- Combined store state: ClickHouse rows plus the Redis keyspace. -/
structure St where
  ch : List ChPat
  redis : List (String × RVal)

/-- Redis `GET`. -/
def rget (redis : List (String × RVal)) (k : String) : Option RVal :=
  (redis.find? (fun kv => kv.1 == k)).map (·.2)

/-- Redis `SET` (overwrite). -/
def rset (redis : List (String × RVal)) (k : String) (v : RVal) :
    List (String × RVal) :=
  (k, v) :: redis.filter (fun kv => kv.1 != k)

/-- Redis `DEL k₁ … kₙ`: removes the keys, returns how many existed.
(`keys` as issued by this code base are pairwise distinct.) -/
def rdel (redis : List (String × RVal)) (keys : List String) :
    Nat × List (String × RVal) :=
  ((keys.filter (fun k => (rget redis k).isSome)).length,
   redis.filter (fun kv => !(keys.contains kv.1)))

/-! ## Metadata Store Adapter (`app/db/redis_client.py`) -/

/-- Key `{kb_id}:frequency:{pattern_name}`. -/
def freqKey (kb_id pattern_name : String) : String :=
  kb_id ++ ":frequency:" ++ pattern_name

/-- Key `{kb_id}:emotives:{pattern_name}`. -/
def emotivesKey (kb_id pattern_name : String) : String :=
  kb_id ++ ":emotives:" ++ pattern_name

/-- Key `{kb_id}:metadata:{pattern_name}`. -/
def metadataKey (kb_id pattern_name : String) : String :=
  kb_id ++ ":metadata:" ++ pattern_name

/-- `get_pattern_frequency`: `int(freq) if freq else 0`, any exception
(including a failed `GET`, modelled by `fail`) degrades to `0`. -/
def get_pattern_frequency (fail : Bool) (st : St) (kb_id pattern_name : String) :
    Int :=
  if fail then 0
  else
    match rget st.redis (freqKey kb_id pattern_name) with
    | none => 0
    | some v => (rvToInt v).getD 0

/-- `get_patterns_frequencies_batch`: one pipelined fetch; the whole batch is
inside one `try`, so a pipeline failure (`fail`) — or a stored value on which
`int()` raises — makes the function return `0` for *every* requested name,
with no error indication. -/
def get_patterns_frequencies_batch (fail : Bool) (st : St) (kb_id : String)
    (pattern_names : List String) : List (String × Int) :=
  if fail then pattern_names.map (fun n => (n, 0))
  else if pattern_names.any (fun n =>
      match rget st.redis (freqKey kb_id n) with
      | some v => (rvToInt v).isNone
      | none => false) then
    pattern_names.map (fun n => (n, 0))
  else
    pattern_names.map (fun n =>
      (n, match rget st.redis (freqKey kb_id n) with
          | none => 0
          | some v => (rvToInt v).getD 0))

/-- `get_pattern_emotives`: `json.loads` of the stored string; missing key,
non-list JSON, or parse failure all degrade to `[]`. -/
def get_pattern_emotives (st : St) (kb_id pattern_name : String) : List Json :=
  match rget st.redis (emotivesKey kb_id pattern_name) with
  | some (.json (.arr l)) => l
  | _ => []

/-- `get_pattern_metadata`: `json.loads` of the stored string; missing key,
non-dict JSON, or parse failure all degrade to `{}`. -/
def get_pattern_metadata (st : St) (kb_id pattern_name : String) :
    List (String × Json) :=
  match rget st.redis (metadataKey kb_id pattern_name) with
  | some (.json (.obj m)) => m
  | _ => []

/-- Post-guard body of `set_pattern_frequency` (dead code: the guard's
attribute access raises first, see `set_pattern_frequency_checked`; `ro` is
the value the guard would have tested). -/
def set_pattern_frequency_body (ro : Bool) (st : St) (kb_id pattern_name : String)
    (frequency : Int) : Bool × St :=
  if ro then (false, st)
  else (true, { st with
    redis := rset st.redis (freqKey kb_id pattern_name) (.int frequency) })

/-- Post-guard body of `set_pattern_emotives`: stores `json.dumps(emotives)`.
(The declared parameter type is a list, but callers may pass any JSON value
and `dumps` accepts it, so the model takes `Json`.  Dead code, see
`set_pattern_emotives_checked`.) -/
def set_pattern_emotives_body (ro : Bool) (st : St) (kb_id pattern_name : String)
    (emotives : Json) : Bool × St :=
  if ro then (false, st)
  else (true, { st with
    redis := rset st.redis (emotivesKey kb_id pattern_name) (.json emotives) })

/-- Post-guard body of `set_pattern_metadata`: stores `json.dumps(metadata)`.
(Dead code, see `set_pattern_metadata_checked`.) -/
def set_pattern_metadata_body (ro : Bool) (st : St) (kb_id pattern_name : String)
    (metadata : Json) : Bool × St :=
  if ro then (false, st)
  else (true, { st with
    redis := rset st.redis (metadataKey kb_id pattern_name) (.json metadata) })

/-- Post-guard body of `delete_pattern_metadata`: deletes the
frequency/emotives/metadata keys of one pattern; returns `True` whether or not
any key existed.  `fault` models the `DEL` call raising (caught, returns
`False`).  (Dead code, see `delete_pattern_metadata_checked`.) -/
def delete_pattern_metadata_body (ro fault : Bool) (st : St)
    (kb_id pattern_name : String) : Bool × St :=
  if ro then (false, st)
  else if fault then (false, st)
  else
    let keys := [freqKey kb_id pattern_name, emotivesKey kb_id pattern_name,
      metadataKey kb_id pattern_name]
    (true, { st with redis := (rdel st.redis keys).2 })

/-- Post-guard body of `bulk_delete_pattern_metadata`: deletes the three keys
of every listed pattern; returns the number of keys actually removed.  (Dead
code, see `bulk_delete_pattern_metadata_checked`.) -/
def bulk_delete_pattern_metadata_body (ro fault : Bool) (st : St) (kb_id : String)
    (pattern_names : List String) : Nat × St :=
  if ro then (0, st)
  else if pattern_names.isEmpty then (0, st)
  else if fault then (0, st)
  else
    let keys := pattern_names.flatMap (fun n =>
      [freqKey kb_id n, emotivesKey kb_id n, metadataKey kb_id n])
    let r := rdel st.redis keys.dedup
    (r.1, { st with redis := r.2 })

/-- Post-guard body of `delete_kb_metadata`: scans and deletes every
`{kb_id}:frequency:*` / `{kb_id}:emotives:*` / `{kb_id}:metadata:*` key;
returns the number of keys removed.  (Dead code, see
`delete_kb_metadata_checked`.) -/
def delete_kb_metadata_body (ro fault : Bool) (st : St) (kb_id : String) :
    Nat × St :=
  if ro then (0, st)
  else if fault then (0, st)
  else
    let matches_kb := fun (k : String) =>
      pyStartsWith k (kb_id ++ ":frequency:") ||
      pyStartsWith k (kb_id ++ ":emotives:") ||
      pyStartsWith k (kb_id ++ ":metadata:")
    (((st.redis.map (·.1)).dedup.filter matches_kb).length,
     { st with redis := st.redis.filter (fun kv => !matches_kb kv.1) })

/-! ## Columnar Store Adapter (`app/db/clickhouse.py`) -/

/-- Rows of one kb (`WHERE kb_id = %(kb_id)s`). -/
def chRows (st : St) (kb_id : String) : List ChPat :=
  st.ch.filter (fun p => p.kb_id == kb_id)

/-- `get_pattern_count`: `SELECT COUNT(*) … WHERE kb_id = …`. -/
def get_pattern_count (st : St) (kb_id : String) : Nat :=
  (chRows st kb_id).length

/-- `get_all_pattern_names`: `SELECT name … WHERE kb_id = … ORDER BY name`. -/
def get_all_pattern_names (st : St) (kb_id : String) : List String :=
  sortLe strLeB ((chRows st kb_id).map (·.name))

/-- `get_kb_ids`: `SELECT DISTINCT kb_id … ORDER BY kb_id`. -/
def get_kb_ids (st : St) : List String :=
  sortLe strLeB (st.ch.map (·.kb_id)).dedup

/-- Total order on the nullable datetime column (model choice for an order
no claim depends on). -/
def optStrLe : Option String → Option String → Bool
  | none, _ => true
  | some _, none => false
  | some a, some b => strLeB a b

/-- `ORDER BY {sort_col} ASC` comparison; `sort_fields.get(sort_by, 'length')`
maps unknown fields to `length`. -/
def colLe (sort_by : String) (a b : ChPat) : Bool :=
  if sort_by == "name" then strLeB a.name b.name
  else if sort_by == "token_count" then decide (a.token_count ≤ b.token_count)
  else if sort_by == "created_at" then optStrLe a.created_at b.created_at
  else if sort_by == "updated_at" then optStrLe a.updated_at b.updated_at
  else decide (a.length ≤ b.length)

/-- `query_patterns`: `ORDER BY {col} {dir} LIMIT %(limit)s OFFSET %(skip)s`
(ties determinised by stored row order, see header). -/
def query_patterns (st : St) (kb_id : String) (skip limit : Nat)
    (sort_by sort_order : String) : List ChPat :=
  let le := fun a b =>
    if sort_order == "DESC" then colLe sort_by b a else colLe sort_by a b
  ((sortLe le (chRows st kb_id)).drop skip).take limit

/-- `get_pattern_by_name`: `WHERE kb_id = … AND name = … LIMIT 1`. -/
def get_pattern_by_name (st : St) (kb_id pattern_name : String) :
    Option ChPat :=
  (chRows st kb_id).find? (fun p => p.name == pattern_name)

/-- Post-guard body of `clickhouse.delete_pattern`:
`ALTER TABLE … DELETE WHERE kb_id = … AND name = …`.  The statement succeeds
whether or not any row matches; `fault` models the command raising (caught,
returns `False`).  (Dead code: the function's own `settings.database_read_only`
guard raises first, exactly as for the hybrid-level operations.) -/
def ch_delete_pattern_body (ro fault : Bool) (st : St) (kb_id pattern_name : String) :
    Bool × St :=
  if ro then (false, st)
  else if fault then (false, st)
  else
    let ch' := st.ch.filter (fun p => !(p.kb_id == kb_id && p.name == pattern_name))
    (true, { st with ch := ch' })

/-- Post-guard body of `clickhouse.bulk_delete_patterns`: one
`ALTER TABLE … DELETE … IN (…)`; returns `len(pattern_names)` (an estimate —
ClickHouse reports no count).  (Dead code, guard raises first.) -/
def ch_bulk_delete_patterns_body (ro fault : Bool) (st : St) (kb_id : String)
    (pattern_names : List String) : Nat × St :=
  if ro then (0, st)
  else if pattern_names.isEmpty then (0, st)
  else if fault then (0, st)
  else
    let ch' := st.ch.filter
      (fun p => !(p.kb_id == kb_id && pattern_names.contains p.name))
    (pattern_names.length, { st with ch := ch' })

/-- Post-guard body of `clickhouse.delete_kb_id`: counts, then
`ALTER TABLE … DELETE WHERE kb_id = …`.  (Dead code, guard raises first.) -/
def ch_delete_kb_id_body (ro fault : Bool) (st : St) (kb_id : String) : Nat × St :=
  if ro then (0, st)
  else if fault then (0, st)
  else (get_pattern_count st kb_id,
    { st with ch := st.ch.filter (fun p => !(p.kb_id == kb_id)) })

/-! ## Hybrid Pattern Repository (`app/db/hybrid_patterns.py`) -/

/-- A pattern dictionary as returned by the repository (`_id` mirrors `name`
for MongoDB compatibility).  `emotives`/`metadata` are dynamic JSON values:
the list views return literal `{}` for both. -/
structure PatternOut where
  _id : String
  name : String
  pattern_data : List (List String)
  length : Nat
  token_count : Nat
  token_set : List String
  frequency : Int
  minhash_sig : List Nat
  lsh_bands : List String
  first_token : String
  last_token : String
  created_at : Option String
  updated_at : Option String
  emotives : Json
  metadata : Json

/-- List-view pattern dictionary built from a ClickHouse row plus a Redis
frequency; `emotives`/`metadata` are hard-coded `{}` (not fetched). -/
def mkListPattern (p : ChPat) (frequency : Int) : PatternOut :=
  { _id := p.name, name := p.name, pattern_data := p.pattern_data,
    length := p.length, token_count := p.token_count, token_set := p.token_set,
    frequency := frequency, minhash_sig := p.minhash_sig,
    lsh_bands := p.lsh_bands, first_token := p.first_token,
    last_token := p.last_token, created_at := p.created_at,
    updated_at := p.updated_at, emotives := .obj [], metadata := .obj [] }

/-- Paginated listing result. -/
structure PatternsPage where
  patterns : List PatternOut
  total : Nat
  skip : Nat
  limit : Nat
  has_more : Bool

/-- `frequencies.get(name, 0)` on the batch-fetch result (dict lookup). -/
def freqLookup (frequencies : List (String × Int)) (name : String) : Int :=
  ((frequencies.find? (fun kv => kv.1 == name)).map (·.2)).getD 0

/-- The frequency sort key of `_get_patterns_sorted_by_frequency`:
`frequencies.get(name, 0)` over the batch fetch of *all* names of the kb. -/
def freq_key (rfail : Bool) (st : St) (kb_id : String) (name : String) : Int :=
  freqLookup
    (get_patterns_frequencies_batch rfail st kb_id (get_all_pattern_names st kb_id))
    name

/-- Steps 1–3 of `_get_patterns_sorted_by_frequency`: all names of the kb,
stably sorted in Python by the Redis frequency
(`reverse = (sort_order == -1)`). -/
def sorted_names_by_frequency (rfail : Bool) (st : St) (kb_id : String)
    (sort_order : Int) : List String :=
  sortLe
    (fun a b =>
      if sort_order == -1 then decide (freq_key rfail st kb_id b ≤ freq_key rfail st kb_id a)
      else decide (freq_key rfail st kb_id a ≤ freq_key rfail st kb_id b))
    (get_all_pattern_names st kb_id)

/-- `_get_patterns_sorted_by_frequency`: sort all names by frequency, slice
`[skip, skip+limit)`, hydrate the page from ClickHouse (`if p:` drops names
whose hydration returns nothing). -/
def get_patterns_sorted_by_frequency (rfail : Bool) (st : St) (kb_id : String)
    (skip limit : Nat) (sort_order : Int) : PatternsPage :=
  let all_names := get_all_pattern_names st kb_id
  let frequencies := get_patterns_frequencies_batch rfail st kb_id all_names
  let sorted_names := sorted_names_by_frequency rfail st kb_id sort_order
  let page_names := (sorted_names.drop skip).take limit
  let patterns := page_names.filterMap (fun n =>
    (get_pattern_by_name st kb_id n).map
      (fun p => mkListPattern p (freqLookup frequencies p.name)))
  { patterns := patterns, total := all_names.length, skip := skip,
    limit := limit, has_more := skip + patterns.length < all_names.length }

/-- `get_patterns_hybrid`: frequency sorting is delegated; every other sort
field pages in ClickHouse directly and enriches the page with Redis
frequencies. -/
def get_patterns_hybrid (rfail : Bool) (st : St) (kb_id : String)
    (skip limit : Nat) (sort_by : String) (sort_order : Int) : PatternsPage :=
  if sort_by == "frequency" then
    get_patterns_sorted_by_frequency rfail st kb_id skip limit sort_order
  else
    let sort_dir := if sort_order == -1 then "DESC" else "ASC"
    let total := get_pattern_count st kb_id
    let patterns_ch := query_patterns st kb_id skip limit sort_by sort_dir
    let frequencies := get_patterns_frequencies_batch rfail st kb_id
      (patterns_ch.map (·.name))
    let patterns := patterns_ch.map
      (fun p => mkListPattern p (freqLookup frequencies p.name))
    { patterns := patterns, total := total, skip := skip, limit := limit,
      has_more := skip + patterns.length < total }

/-- `get_pattern_by_id_hybrid`: the detail view; fetches the full Redis
metadata (frequency, emotives, metadata) for one pattern. -/
def get_pattern_by_id_hybrid (rfail : Bool) (st : St)
    (kb_id pattern_name : String) : Option PatternOut :=
  (get_pattern_by_name st kb_id pattern_name).map (fun p =>
    { _id := p.name, name := p.name, pattern_data := p.pattern_data,
      length := p.length, token_count := p.token_count,
      token_set := p.token_set,
      frequency := get_pattern_frequency rfail st kb_id pattern_name,
      emotives := .arr (get_pattern_emotives st kb_id pattern_name),
      metadata := .obj (get_pattern_metadata st kb_id pattern_name),
      minhash_sig := p.minhash_sig, lsh_bands := p.lsh_bands,
      first_token := p.first_token, last_token := p.last_token,
      created_at := p.created_at, updated_at := p.updated_at })

/-- Dict lookup in a JSON-dict payload. -/
def jget (l : List (String × Json)) (k : String) : Option Json :=
  (l.find? (fun kv => kv.1 == k)).map (·.2)

/-- Post-guard body of `update_pattern_hybrid`: applies the Redis metadata
updates in order frequency → emotives → metadata and returns `True`;
ClickHouse fields are intentionally not updated.  A `frequency` value on
which the Redis client raises `DataError` (any non-integer) is processed
first — the setter catches the error internally, leaving the store unchanged,
and the update still reports `True`.  (Dead code, see
`update_pattern_hybrid_checked`.) -/
def update_pattern_hybrid_body (ro : Bool) (st : St) (kb_id pattern_name : String)
    (updates : List (String × Json)) : Bool × St :=
  if ro then (false, st)
  else
    let st1 := match jget updates "frequency" with
      | some v =>
        match v with
        | .numI n => (set_pattern_frequency_body false st kb_id pattern_name n).2
        | _ => st
      | none => st
    let st2 := match jget updates "emotives" with
      | some v => (set_pattern_emotives_body false st1 kb_id pattern_name v).2
      | none => st1
    let st3 := match jget updates "metadata" with
      | some v => (set_pattern_metadata_body false st2 kb_id pattern_name v).2
      | none => st2
    (true, st3)

/-- Post-guard body of `delete_pattern_hybrid`: deletes from ClickHouse then
Redis and reports `ch_success and redis_success` — a single Boolean.  (Dead
code, see `delete_pattern_hybrid_checked`.) -/
def delete_pattern_hybrid_body (ro chFault rFault : Bool) (st : St)
    (kb_id pattern_name : String) : Bool × St :=
  if ro then (false, st)
  else
    let r1 := ch_delete_pattern_body ro chFault st kb_id pattern_name
    let r2 := delete_pattern_metadata_body ro rFault r1.2 kb_id pattern_name
    (r1.1 && r2.1, r2.2)

/-- Result record of `bulk_delete_patterns_hybrid`. -/
structure BulkDeleteResult where
  clickhouse_deleted : Nat
  redis_keys_deleted : Nat
  total : Nat

/-- Post-guard body of `bulk_delete_patterns_hybrid`: reports the two
per-store counts separately.  (Dead code, see
`bulk_delete_patterns_hybrid_checked`.) -/
def bulk_delete_patterns_hybrid_body (ro chFault rFault : Bool) (st : St)
    (kb_id : String) (pattern_names : List String) : BulkDeleteResult × St :=
  if ro then ({ clickhouse_deleted := 0, redis_keys_deleted := 0, total := 0 }, st)
  else if pattern_names.isEmpty then
    ({ clickhouse_deleted := 0, redis_keys_deleted := 0, total := 0 }, st)
  else
    let r1 := ch_bulk_delete_patterns_body ro chFault st kb_id pattern_names
    let r2 := bulk_delete_pattern_metadata_body ro rFault r1.2 kb_id pattern_names
    ({ clickhouse_deleted := r1.1, redis_keys_deleted := r2.1,
       total := pattern_names.length }, r2.2)

/-- Result record of `delete_knowledgebase_hybrid`. -/
structure KbDeleteResult where
  clickhouse_deleted : Nat
  redis_keys_deleted : Nat
  kb_id : String
  error : Option String

/-- Post-guard body of `delete_knowledgebase_hybrid`: removes every pattern
and metadata key of one kb; under read-only mode reports zeros plus an error
string.  (Dead code, see `delete_knowledgebase_hybrid_checked`.) -/
def delete_knowledgebase_hybrid_body (ro chFault rFault : Bool) (st : St)
    (kb_id : String) : KbDeleteResult × St :=
  if ro then
    ({ clickhouse_deleted := 0, redis_keys_deleted := 0, kb_id := kb_id,
       error := some "Read-only mode enabled" }, st)
  else
    let r1 := ch_delete_kb_id_body ro chFault st kb_id
    let r2 := delete_kb_metadata_body ro rFault r1.2 kb_id
    ({ clickhouse_deleted := r1.1, redis_keys_deleted := r2.1, kb_id := kb_id,
       error := none }, r2.2)

/-! ## Configuration (`app/core/config.py`) -/

/-- The `Settings` model: exactly the fields declared in `config.py`
(float-valued thresholds carried as rationals).  Note that **no**
`database_read_only` field is declared. -/
structure Settings where
  app_name : String := "KATO Dashboard API"
  app_version : String := "1.0.0"
  host : String := "0.0.0.0"
  port : Nat := 8080
  log_level : String := "INFO"
  kato_api_url : String := "http://kato:8000"
  mongo_url : String := "mongodb://mongodb:27017"
  mongo_read_only : Bool := true
  qdrant_url : String := "http://qdrant:6333"
  redis_url : String := "redis://redis:6379"
  admin_username : String := "admin"
  admin_password : String := "changeme"
  secret_key : String := "your-secret-key-change-in-production"
  algorithm : String := "HS256"
  access_token_expire_minutes : Nat := 30
  cors_origins : String := "http://localhost:3000,http://localhost:8080"
  cache_ttl_seconds : Nat := 30
  max_cache_size : Nat := 1000
  websocket_enabled : Bool := true
  websocket_container_stats : Bool := true
  websocket_session_events : Bool := true
  websocket_system_alerts : Bool := true
  websocket_selective_subscriptions : Bool := true
  alert_cpu_threshold : ℚ := 80
  alert_memory_threshold : ℚ := 85
  alert_error_rate_threshold : ℚ := 5 / 100
  alert_cooldown_seconds : Nat := 60

/-- The message pydantic raises when an undeclared attribute is read. -/
def attrErrorMsg : String :=
  "AttributeError: Settings object has no attribute database_read_only"

/-- The attribute access `settings.database_read_only` performed by every
mutation guard: `Settings` declares no such field, so a pydantic model raises
`AttributeError` — for every `Settings` value, regardless of environment. -/
def Settings.database_read_only_attr (_ : Settings) : Except String Bool :=
  .error attrErrorMsg

/-- `update_pattern_hybrid` as actually written: the guard reads
`settings.database_read_only` before the `try` block, so the raised
`AttributeError` propagates (no store is touched). -/
def update_pattern_hybrid_checked (s : Settings) (st : St)
    (kb_id pattern_name : String) (updates : List (String × Json)) :
    Except String (Bool × St) :=
  (s.database_read_only_attr).map
    (fun ro => update_pattern_hybrid_body ro st kb_id pattern_name updates)

/-- `delete_pattern_hybrid` as actually written (guard outside the `try`). -/
def delete_pattern_hybrid_checked (s : Settings) (chFault rFault : Bool)
    (st : St) (kb_id pattern_name : String) : Except String (Bool × St) :=
  (s.database_read_only_attr).map
    (fun ro => delete_pattern_hybrid_body ro chFault rFault st kb_id pattern_name)

/-- `bulk_delete_patterns_hybrid` as actually written. -/
def bulk_delete_patterns_hybrid_checked (s : Settings) (chFault rFault : Bool)
    (st : St) (kb_id : String) (pattern_names : List String) :
    Except String (BulkDeleteResult × St) :=
  (s.database_read_only_attr).map
    (fun ro => bulk_delete_patterns_hybrid_body ro chFault rFault st kb_id pattern_names)

/-- `delete_knowledgebase_hybrid` as actually written. -/
def delete_knowledgebase_hybrid_checked (s : Settings) (chFault rFault : Bool)
    (st : St) (kb_id : String) : Except String (KbDeleteResult × St) :=
  (s.database_read_only_attr).map
    (fun ro => delete_knowledgebase_hybrid_body ro chFault rFault st kb_id)

/-- `set_pattern_frequency` as actually written. -/
def set_pattern_frequency_checked (s : Settings) (st : St)
    (kb_id pattern_name : String) (frequency : Int) :
    Except String (Bool × St) :=
  (s.database_read_only_attr).map
    (fun ro => set_pattern_frequency_body ro st kb_id pattern_name frequency)

/-- `set_pattern_emotives` as actually written. -/
def set_pattern_emotives_checked (s : Settings) (st : St)
    (kb_id pattern_name : String) (emotives : Json) :
    Except String (Bool × St) :=
  (s.database_read_only_attr).map
    (fun ro => set_pattern_emotives_body ro st kb_id pattern_name emotives)

/-- `set_pattern_metadata` as actually written. -/
def set_pattern_metadata_checked (s : Settings) (st : St)
    (kb_id pattern_name : String) (metadata : Json) :
    Except String (Bool × St) :=
  (s.database_read_only_attr).map
    (fun ro => set_pattern_metadata_body ro st kb_id pattern_name metadata)

/-- `delete_pattern_metadata` as actually written. -/
def delete_pattern_metadata_checked (s : Settings) (fault : Bool) (st : St)
    (kb_id pattern_name : String) : Except String (Bool × St) :=
  (s.database_read_only_attr).map
    (fun ro => delete_pattern_metadata_body ro fault st kb_id pattern_name)

/-- `bulk_delete_pattern_metadata` as actually written. -/
def bulk_delete_pattern_metadata_checked (s : Settings) (fault : Bool)
    (st : St) (kb_id : String) (pattern_names : List String) :
    Except String (Nat × St) :=
  (s.database_read_only_attr).map
    (fun ro => bulk_delete_pattern_metadata_body ro fault st kb_id pattern_names)

/-- `delete_kb_metadata` as actually written. -/
def delete_kb_metadata_checked (s : Settings) (fault : Bool) (st : St)
    (kb_id : String) : Except String (Nat × St) :=
  (s.database_read_only_attr).map
    (fun ro => delete_kb_metadata_body ro fault st kb_id)

/-! ## Route handler `update_pattern` (`app/api/routes.py`) -/

/-- The `HTTPException`s the update route can raise. -/
inductive HttpErr : Type where
  | notFound : String → HttpErr
  | badRequest : String → HttpErr
  | internal : String → HttpErr
deriving DecidableEq

/-- `isinstance(v, int)` — Python `bool` is a subclass of `int`. -/
def isPyInt : Json → Bool
  | .numI _ => true
  | .bool _ => true
  | _ => false

/-- The `int` value of a Python int (bools count as `1`/`0`). -/
def pyIntVal : Json → Int
  | .numI n => n
  | .bool b => if b then 1 else 0
  | _ => 0

/-- `isinstance(v, dict)`. -/
def isPyDict : Json → Bool
  | .obj _ => true
  | _ => false

/-- The route's `frequency` type check (`routes.py:1093-1098`): if the field
is present it must be a non-negative `int`. -/
def freqFieldOk (request : List (String × Json)) : Bool :=
  match jget request "frequency" with
  | some v => isPyInt v && decide (0 ≤ pyIntVal v)
  | none => true

/-- The route's `emotives` type check (`routes.py:1101-1106`). -/
def emoFieldOk (request : List (String × Json)) : Bool :=
  match jget request "emotives" with
  | some v => isPyDict v
  | none => true

/-- The route's `metadata` type check (`routes.py:1109-1114`). -/
def metaFieldOk (request : List (String × Json)) : Bool :=
  match jget request "metadata" with
  | some v => isPyDict v
  | none => true

/-- The `updates` dict the route builds (`routes.py:1092-1115`): only the
three accepted fields are extracted; every other request field is ignored. -/
def routeUpdates (request : List (String × Json)) : List (String × Json) :=
  (match jget request "frequency" with
    | some v => [("frequency", v)] | none => []) ++
  (match jget request "emotives" with
    | some v => [("emotives", v)] | none => []) ++
  (match jget request "metadata" with
    | some v => [("metadata", v)] | none => [])

/-- Whether a request carries at least one accepted field (equivalently: the
extracted `updates` dict is non-empty). -/
def reqHasAcceptedField (request : List (String × Json)) : Bool :=
  (jget request "frequency").isSome || (jget request "emotives").isSome
    || (jget request "metadata").isSome

/-- All three per-field type checks of the route pass. -/
def reqFieldChecksOk (request : List (String × Json)) : Bool :=
  freqFieldOk request && (emoFieldOk request && metaFieldOk request)

/-- `PUT /databases/patterns/{kb_id}/patterns/{pattern_name}`: validates that
the pattern exists (404), extracts **only** `frequency`/`emotives`/`metadata`
— other request fields are not inspected — rejects a wrongly-typed accepted
field or an update set that ends up empty (400), then calls
`update_pattern_hybrid`; an exception raised there (the read-only guard's
`AttributeError`) is caught by the handler's `except Exception` and re-raised
as HTTP 500 with `str(e)` as detail, no store having been touched.  (Python
may return `None` for the re-read if the pattern vanished, hence `Option`.) -/
def route_update_pattern (s : Settings) (rfail : Bool) (st : St)
    (kb_id pattern_name : String) (request : List (String × Json)) :
    Except HttpErr (Option PatternOut) × St :=
  match get_pattern_by_id_hybrid rfail st kb_id pattern_name with
  | none =>
    (.error (.notFound ("Pattern " ++ pattern_name ++ " not found in " ++ kb_id)), st)
  | some _ =>
    if !freqFieldOk request then
      (.error (.badRequest "Frequency must be a non-negative integer"), st)
    else if !emoFieldOk request then
      (.error (.badRequest "Emotives must be a dictionary"), st)
    else if !metaFieldOk request then
      (.error (.badRequest "Metadata must be a dictionary"), st)
    else if (routeUpdates request).isEmpty then
      (.error (.badRequest
        "No valid fields to update (frequency, emotives, metadata)"), st)
    else
      match update_pattern_hybrid_checked s st kb_id pattern_name
          (routeUpdates request) with
      | .error e => (.error (.internal e), st)
      | .ok r =>
        if r.1 then
          (.ok (get_pattern_by_id_hybrid rfail r.2 kb_id pattern_name), r.2)
        else
          (.error (.internal "Failed to update pattern (check read-only mode)"),
           r.2)

/-! ## Hierarchy Graph Engine (`app/services/hierarchy_analysis.py`) -/

/-- Modelled from the spec: `get_all_symbols` is imported by
`hierarchy_analysis.py` from `app.db.symbol_stats` but is absent from that
module's source; per the spec (§4.4/§4.5) it returns, for a kb, the mapping
from each symbol name to its statistics (`frequency`,
`pattern_membership_frequency`), loaded from the metadata store's
`{kb_id}:symbol:freq:{name}` / `{kb_id}:symbol:pmf:{name}` keys (compare the
sibling loader `_load_all_symbols`). -/
def get_all_symbols (st : St) (kb_id : String) : List (String × Int × Int) :=
  st.redis.filterMap (fun kv =>
    let pre := kb_id ++ ":symbol:freq:"
    if pyStartsWith kv.1 pre then
      let name := pyDrop kv.1 pre.length
      some (name, (rvToInt kv.2).getD 0,
        (((rget st.redis (kb_id ++ ":symbol:pmf:" ++ name)).bind rvToInt).getD 0))
    else none)

/-- The outputs of `get_connection_details` the claims speak about.  The
`sample_connections` list (presentation-only enrichment of up to 50 sampled
connections) is not modelled; `coverage_*` are kept exact — Python rounds
them to 4 decimal places for display. -/
structure ConnectionDetails where
  source_kb : String
  target_kb : String
  connection_count : Nat
  coverage_source : ℚ
  coverage_target : ℚ

/-- `get_connection_details`: all source pattern names (ClickHouse), all
target symbol names (symbol statistics), intersection of the
`PTRN|`-prefixed source names with the target symbol set, and the two
coverage ratios (`0.0` for an empty denominator). -/
def get_connection_details (st : St) (source_kb target_kb : String) :
    ConnectionDetails :=
  let source_patterns := get_all_pattern_names st source_kb
  let target_symbol_set := ((get_all_symbols st target_kb).map (·.1)).dedup
  let source_pattern_set_prefixed :=
    (source_patterns.map (fun p => "PTRN|" ++ p)).dedup
  let connections :=
    source_pattern_set_prefixed.filter (fun s => target_symbol_set.contains s)
  let connection_count := connections.length
  { source_kb := source_kb, target_kb := target_kb,
    connection_count := connection_count,
    coverage_source :=
      if source_patterns.isEmpty then 0
      else (connection_count : ℚ) / (source_patterns.length : ℚ),
    coverage_target :=
      if target_symbol_set.isEmpty then 0
      else (connection_count : ℚ) / (target_symbol_set.length : ℚ) }

/-! ## Composition Graph Tracer (`app/services/hierarchy_analysis.py`) -/

/-- `parse_pattern_references`: first element of each non-empty symbol group,
kept when it carries the `PTRN|` marker, with the marker stripped
(`replace('PTRN|', '', 1)` after `startswith('PTRN|')` strips the prefix). -/
def parse_pattern_references (pattern_data : List (List String)) :
    List String :=
  pattern_data.filterMap (fun item =>
    match item with
    | [] => none
    | symbol :: _ =>
      if pyStartsWith symbol "PTRN|" then some (pyDrop symbol 5) else none)

/-- The level expression `int(kb_id.split('_')[0].replace('node', '')) if
kb_id.startswith('node') else 999`; the `int()` raises `ValueError` on a
malformed numeral. -/
def pyKbLevel (kb_id : String) : Except String Int :=
  if pyStartsWith kb_id "node" then
    match pyToInt ⟨pyRemoveNode (pySplitHeadUnderscore kb_id).data⟩ with
    | some n => .ok n
    | none => .error "ValueError: invalid literal for int"
  else .ok 999

/-- `get_parent_kb` (the `ValueError` is caught and becomes `None`). -/
def get_parent_kb (kb_id : String) : Option String :=
  if pyStartsWith kb_id "node" then
    match pyToInt ⟨pyRemoveNode (pySplitHeadUnderscore kb_id).data⟩ with
    | some level => if level > 0 then some s!"node{level - 1}_kato" else none
    | none => none
  else none

/-- `get_child_kb` (maximum level 3). -/
def get_child_kb (kb_id : String) : Option String :=
  if pyStartsWith kb_id "node" then
    match pyToInt ⟨pyRemoveNode (pySplitHeadUnderscore kb_id).data⟩ with
    | some level => if level < 3 then some s!"node{level + 1}_kato" else none
    | none => none
  else none

/-- `find_pattern_kb`: probe each kb (in `get_kb_ids` order) for the name;
first match wins. -/
def find_pattern_kb (st : St) (pattern_name : String) : Option String :=
  (get_kb_ids st).find? (fun kb => (get_pattern_by_name st kb pattern_name).isSome)

/-- A node of the composition graph. -/
structure TrNode where
  id : String
  pattern_name : String
  kb_id : String
  level : Int
  length : Nat
  frequency : Int
  label : String
  pattern_data : List (List String)

/-- An edge of the composition graph (`position` is the ordinal slot index). -/
structure TrEdge where
  source : String
  target : String
  position : Nat
  label : String

/-- The tracer's mutable state: accumulated nodes/edges and the visited-name
set (Python keeps a `set` of pattern names). -/
structure TrSt where
  nodes : List TrNode
  edges : List TrEdge
  visited : List String

/-- `trace_ancestors`: the backward pass.  `fuel` is `max_depth - depth + 1`,
so `fuel = 0` is exactly the `depth > max_depth` cut-off.  A name already in
`visited` terminates the branch, which bounds the walk even over cyclic
reference data. -/
def trace_ancestors (rfail : Bool) (st : St) :
    Nat → String → String → TrSt → Except String TrSt
  | 0, _, _, ts => .ok ts
  | fuel + 1, curr_name, curr_kb, ts =>
    if ts.visited.contains curr_name then .ok ts
    else
      let ts1 : TrSt := { ts with visited := curr_name :: ts.visited }
      match get_pattern_by_name st curr_kb curr_name with
      | none => .ok ts1
      | some pattern =>
        match pyKbLevel curr_kb with
        | .error e => .error e
        | .ok level =>
          let frequency := get_pattern_frequency rfail st curr_kb curr_name
          let node_id := curr_kb ++ ":" ++ curr_name
          let ts2 : TrSt := { ts1 with nodes := ts1.nodes ++
            [{ id := node_id, pattern_name := curr_name, kb_id := curr_kb,
               level := level, length := pattern.length,
               frequency := frequency,
               label := "PTRN|" ++ pyTake curr_name 8 ++ "...",
               pattern_data := pattern.pattern_data }] }
          let refs := parse_pattern_references pattern.pattern_data
          if refs.isEmpty then .ok ts2
          else
            match get_parent_kb curr_kb with
            | none => .ok ts2
            | some parent_kb =>
              refs.enum.foldlM (fun acc iref =>
                let acc1 : TrSt := { acc with edges := acc.edges ++
                  [{ source := parent_kb ++ ":" ++ iref.2, target := node_id,
                     position := iref.1, label := s!"pos {iref.1}" }] }
                trace_ancestors rfail st fuel iref.2 parent_kb acc1) ts2

/-- `trace_descendants`: the forward pass.  Scans every pattern of the child
kb (`query_patterns(child_kb, skip=0, limit=100000)`); an edge is recorded
for every referencing child, the child node is added and expanded only when
not yet visited.  `fuel` is `max_depth - depth + 1` (the pass starts at
`depth = 1`). -/
def trace_descendants (rfail : Bool) (st : St) :
    Nat → String → String → TrSt → Except String TrSt
  | 0, _, _, ts => .ok ts
  | fuel + 1, curr_name, curr_kb, ts =>
    match get_child_kb curr_kb with
    | none => .ok ts
    | some child_kb =>
      let all_patterns := query_patterns st child_kb 0 100000 "length" "DESC"
      all_patterns.foldlM (fun acc pattern =>
        let refs := parse_pattern_references pattern.pattern_data
        if refs.contains curr_name then
          let node_id_child := child_kb ++ ":" ++ pattern.name
          let node_id_curr := curr_kb ++ ":" ++ curr_name
          let position := refs.indexOf curr_name
          let acc1 : TrSt := { acc with edges := acc.edges ++
            [{ source := node_id_curr, target := node_id_child,
               position := position, label := s!"pos {position}" }] }
          if acc1.visited.contains pattern.name then .ok acc1
          else
            let acc2 : TrSt := { acc1 with visited := pattern.name :: acc1.visited }
            match pyKbLevel child_kb with
            | .error e => .error e
            | .ok level =>
              let frequency := get_pattern_frequency rfail st child_kb pattern.name
              let acc3 : TrSt := { acc2 with nodes := acc2.nodes ++
                [{ id := node_id_child, pattern_name := pattern.name,
                   kb_id := child_kb, level := level,
                   length := pattern.length, frequency := frequency,
                   label := "PTRN|" ++ pyTake pattern.name 8 ++ "...",
                   pattern_data := pattern.pattern_data }] }
              trace_descendants rfail st fuel pattern.name child_kb acc3
        else .ok acc) ts

/-- Graph statistics record. -/
structure TraceStats where
  total_nodes : Nat
  total_edges : Nat
  max_depth_backward : Int
  max_depth_forward : Int
  origin_pattern : String
  origin_kb : String

/-- `trace_pattern_graph` result. -/
structure TraceResult where
  nodes : List TrNode
  edges : List TrEdge
  statistics : TraceStats

/-- `trace_pattern_graph`: resolve the owning kb if not supplied (`if not
kb_id` also treats the empty string as absent), run the backward pass from
depth 0 and the forward pass from depth 1 over the same visited set, and
report the accumulated nodes/edges with their counts. -/
def trace_pattern_graph (rfail : Bool) (st : St) (pattern_name : String)
    (kb_id : Option String) (max_depth : Int) : Except String TraceResult :=
  let resolved : Option String :=
    match kb_id with
    | some k => if k == "" then find_pattern_kb st pattern_name else some k
    | none => find_pattern_kb st pattern_name
  match resolved with
  | none => .error ("ValueError: Pattern " ++ pattern_name ++
      " not found in any knowledge base")
  | some kb =>
    match trace_ancestors rfail st (max_depth + 1).toNat pattern_name kb
        { nodes := [], edges := [], visited := [] } with
    | .error e => .error e
    | .ok ts1 =>
      match trace_descendants rfail st max_depth.toNat pattern_name kb ts1 with
      | .error e => .error e
      | .ok ts2 =>
        let stats : TraceStats :=
          { total_nodes := ts2.nodes.length, total_edges := ts2.edges.length,
            max_depth_backward := max_depth, max_depth_forward := max_depth,
            origin_pattern := pattern_name, origin_kb := kb }
        .ok { nodes := ts2.nodes, edges := ts2.edges, statistics := stats }

/-! ## Concrete stores for the worked examples -/

/-- A minimal ClickHouse row of kb `kb` with name `n` (the remaining columns
do not influence the examples). -/
def exRow (kb n : String) : ChPat :=
  { kb_id := kb, name := n, pattern_data := [], length := 0, token_set := [],
    token_count := 0, minhash_sig := [], lsh_bands := [], first_token := "",
    last_token := "", created_at := none, updated_at := none }

/-- The spec's frequency-sort example: kb `L0` with patterns
`A=10, B=5, C=20, D=1, E=7`; `A` additionally has stored emotives and
metadata (used by the detail-view example). -/
def exSt : St :=
  { ch := [exRow "L0" "A", exRow "L0" "B", exRow "L0" "C", exRow "L0" "D",
           exRow "L0" "E"],
    redis := [("L0:frequency:A", .int 10), ("L0:frequency:B", .int 5),
              ("L0:frequency:C", .int 20), ("L0:frequency:D", .int 1),
              ("L0:frequency:E", .int 7),
              ("L0:emotives:A", .json (.arr [.obj [("joy", .numF (9 / 10))]])),
              ("L0:metadata:A", .json (.obj [("source", .str "test")]))] }

/-- The spec's hierarchy example: source kb `L0` with patterns
`aaa, bbb, ccc`; target kb `L1` whose symbol set is the marker-prefixed
`PTRN|aaa` plus `zzz`. -/
def exHSt : St :=
  { ch := [exRow "L0" "aaa", exRow "L0" "bbb", exRow "L0" "ccc"],
    redis := [("L1:symbol:freq:PTRN|aaa", .int 3),
              ("L1:symbol:pmf:PTRN|aaa", .int 2),
              ("L1:symbol:freq:zzz", .int 9),
              ("L1:symbol:pmf:zzz", .int 4)] }

/-- A cyclic reference structure: pattern `X` of `node1_kato` whose
`pattern_data` references `X` itself. -/
def exTrSt : St :=
  { ch := [{ exRow "node1_kato" "X" with pattern_data := [["PTRN|X"]], length := 1 }],
    redis := [("node1_kato:frequency:X", .int 4)] }

/-- A concrete `Settings` value (all fields at their declared defaults). -/
def exSettings : Settings :=
  {}

example : get_all_pattern_names exSt "L0" = ["A", "B", "C", "D", "E"] := rfl

example :
    sorted_names_by_frequency false exSt "L0" (-1) = ["C", "A", "E", "B", "D"] :=
  rfl

example :
    ((get_patterns_sorted_by_frequency false exSt "L0" 1 2 (-1)).patterns.map
      (·.name)) = ["A", "E"] := rfl

example : (get_connection_details exHSt "L0" "L1").connection_count = 1 := rfl

example : (get_connection_details exHSt "L0" "L1").coverage_source = 1 / 3 := by
  have h : (get_connection_details exHSt "L0" "L1").coverage_source
      = ((1 : Nat) : ℚ) / ((3 : Nat) : ℚ) := rfl
  rw [h]; norm_num

example :
    (trace_pattern_graph false exTrSt "X" (some "node1_kato") 2).isOk = true :=
  rfl

/-! ## Claim C10 — deleting a nonexistent pattern -/

/-- Claim C10 (code bug): `delete_pattern_hybrid` reads
`settings.database_read_only` at its guard, and `Settings` declares no such
field, so every call — in particular one naming a pattern that exists in
neither store, with both stores reachable — raises `AttributeError` before
either store is consulted, and can never return the full-success `True` the
claim describes; the claim's precondition "outside read-only mode" is
unsatisfiable because the mode check itself crashes. -/
theorem delete_pattern_always_raises (s : Settings) (chFault rFault : Bool)
    (st : St) (kb_id pattern_name : String) :
    delete_pattern_hybrid_checked s chFault rFault st kb_id pattern_name
        = .error attrErrorMsg
    ∧ delete_pattern_hybrid_checked s chFault rFault st kb_id pattern_name
        ≠ .ok (true, st) := by
  refine ⟨rfl, ?_⟩
  intro h
  rw [show delete_pattern_hybrid_checked s chFault rFault st kb_id pattern_name
      = Except.error attrErrorMsg from rfl] at h
  exact Except.noConfusion h

/-! ## Claim C3 — partial-failure reporting of single-pattern delete -/

/-- Claim C3 (code bug): `delete_pattern_hybrid` reads
`settings.database_read_only` before its `try` block, and `Settings` declares
no such field: every single-pattern delete — the two partial-failure
configurations (exactly one store failing) and full failure alike — raises
the same `AttributeError` before either store delete is attempted, so the
call reports no outcome at all, and a fortiori no partial-failure outcome
distinct from full success and full failure. -/
theorem delete_partial_failure_unreachable (s : Settings) (st : St)
    (kb_id pattern_name : String) :
    delete_pattern_hybrid_checked s true false st kb_id pattern_name
        = .error attrErrorMsg
    ∧ delete_pattern_hybrid_checked s false true st kb_id pattern_name
        = .error attrErrorMsg
    ∧ delete_pattern_hybrid_checked s true true st kb_id pattern_name
        = .error attrErrorMsg :=
  ⟨rfl, rfl, rfl⟩

/-! ## Claim C4 — mutations under read-only mode -/

/-- Claim C4 (code bug): the read-only guard of every mutating operation
reads `settings.database_read_only`, but `Settings` declares no such field, so
the access raises `AttributeError` for **every** `Settings` value — the
mutation neither returns the documented rejection Boolean nor any result at
all; read-only mode cannot even be activated.  (The guard runs before any
store access, so the stores are indeed left unchanged — by crashing, not by
the documented rejection path.) -/
theorem mutations_raise_attribute_error
    (s : Settings) (st : St) (kb_id pattern_name : String)
    (updates : List (String × Json)) (pattern_names : List String)
    (chFault rFault fault : Bool) (frequency : Int) (emotives metadata : Json) :
    update_pattern_hybrid_checked s st kb_id pattern_name updates
        = .error attrErrorMsg
    ∧ delete_pattern_hybrid_checked s chFault rFault st kb_id pattern_name
        = .error attrErrorMsg
    ∧ bulk_delete_patterns_hybrid_checked s chFault rFault st kb_id pattern_names
        = .error attrErrorMsg
    ∧ delete_knowledgebase_hybrid_checked s chFault rFault st kb_id
        = .error attrErrorMsg
    ∧ set_pattern_frequency_checked s st kb_id pattern_name frequency
        = .error attrErrorMsg
    ∧ set_pattern_emotives_checked s st kb_id pattern_name emotives
        = .error attrErrorMsg
    ∧ set_pattern_metadata_checked s st kb_id pattern_name metadata
        = .error attrErrorMsg
    ∧ delete_pattern_metadata_checked s fault st kb_id pattern_name
        = .error attrErrorMsg
    ∧ bulk_delete_pattern_metadata_checked s fault st kb_id pattern_names
        = .error attrErrorMsg
    ∧ delete_kb_metadata_checked s fault st kb_id = .error attrErrorMsg :=
  ⟨rfl, rfl, rfl, rfl, rfl, rfl, rfl, rfl, rfl, rfl⟩

/-! ## Claim C8 — failed reads surface as bare zeros -/

/-- Claim C8 counterexample: a failing batch frequency fetch returns
frequency `0` for the requested name — for a pattern whose stored frequency
is `10` — with no error indication, and the result is identical to a
*successful* fetch against a store that simply has no entry, i.e. it is
indistinguishable from "found and empty". -/
theorem failed_reads_fabricate_zero_cex :
    get_patterns_frequencies_batch true exSt "L0" ["A"] = [("A", 0)]
    ∧ get_patterns_frequencies_batch false { ch := [], redis := [] } "L0" ["A"]
        = [("A", 0)]
    ∧ get_pattern_frequency false exSt "L0" "A" = 10 :=
  ⟨rfl, rfl, rfl⟩

/-- Claim C8 (amended): a failed frequency read returns bare zeros with no
error field — the batch fetch maps **every** requested name to `0` and the
single fetch returns `0` — indistinguishable from patterns that have no
stored frequency.  (Some other read paths, e.g. aggregate statistics, do
attach an explicit `error` field.) -/
theorem failed_frequency_reads_return_zero
    (st : St) (kb_id pattern_name : String) (pattern_names : List String) :
    get_patterns_frequencies_batch true st kb_id pattern_names
        = pattern_names.map (fun n => (n, 0))
    ∧ get_pattern_frequency true st kb_id pattern_name = 0 :=
  ⟨rfl, rfl⟩

/-! ## Claim C9 — emotives/metadata in list views vs the detail view -/

/-- Claim C9: every pattern returned by `get_patterns_hybrid` — on the
native-sort path and on the frequency-sort path alike — carries
`emotives = {}` and `metadata = {}` regardless of what the metadata store
holds, while the point lookup `get_pattern_by_id_hybrid` returns the stored
emotives list, metadata map and frequency. -/
theorem list_view_empty_metadata :
    (∀ (rfail : Bool) (st : St) (kb_id : String) (skip limit : Nat)
        (sort_by : String) (sort_order : Int) (p : PatternOut),
      p ∈ (get_patterns_hybrid rfail st kb_id skip limit sort_by sort_order).patterns →
      p.emotives = Json.obj [] ∧ p.metadata = Json.obj [])
    ∧ (∀ (rfail : Bool) (st : St) (kb_id pattern_name : String) (p : PatternOut),
      get_pattern_by_id_hybrid rfail st kb_id pattern_name = some p →
      p.emotives = Json.arr (get_pattern_emotives st kb_id pattern_name)
      ∧ p.metadata = Json.obj (get_pattern_metadata st kb_id pattern_name)
      ∧ p.frequency = get_pattern_frequency rfail st kb_id pattern_name) := by
  constructor
  · intro rfail st kb_id skip limit sort_by sort_order p hp
    rw [get_patterns_hybrid] at hp
    by_cases hs : (sort_by == "frequency") = true
    · rw [if_pos hs] at hp
      rw [get_patterns_sorted_by_frequency] at hp
      simp only [List.mem_filterMap] at hp
      rcases hp with ⟨n, _, hn⟩
      rcases Option.map_eq_some'.mp hn with ⟨q, _, hq⟩
      rw [← hq]
      exact ⟨rfl, rfl⟩
    · rw [if_neg hs] at hp
      simp only [List.mem_map] at hp
      rcases hp with ⟨q, _, hq⟩
      rw [← hq]
      exact ⟨rfl, rfl⟩
  · intro rfail st kb_id pattern_name p hp
    rw [get_pattern_by_id_hybrid] at hp
    rcases Option.map_eq_some'.mp hp with ⟨q, _, hq⟩
    rw [← hq]
    exact ⟨rfl, rfl, rfl⟩

/-- The first pattern of a concrete list view (used by the C9 witness). -/
def exListPat : PatternOut :=
  ((get_patterns_hybrid false exSt "L0" 0 10 "length" (-1)).patterns).headD
    (mkListPattern (exRow "L0" "A") 0)

/-- The concrete detail view of pattern `A` (used by the C9 witness). -/
def exDetailPat : PatternOut :=
  (get_pattern_by_id_hybrid false exSt "L0" "A").getD
    (mkListPattern (exRow "L0" "A") 0)

/-- Witness for C9: in the example store — whose pattern `A` has non-empty
stored emotives and metadata — the list view still returns `{}`/`{}` for the
first listed pattern, and the detail view of `A` returns the stored values. -/
theorem list_view_empty_metadata_witness :
    (exListPat.emotives = Json.obj [] ∧ exListPat.metadata = Json.obj [])
    ∧ (exDetailPat.emotives = Json.arr (get_pattern_emotives exSt "L0" "A")
      ∧ exDetailPat.metadata = Json.obj (get_pattern_metadata exSt "L0" "A")
      ∧ exDetailPat.frequency = get_pattern_frequency false exSt "L0" "A")
    ∧ get_pattern_emotives exSt "L0" "A"
        = [Json.obj [("joy", Json.numF (9 / 10))]] := by
  refine ⟨?_, ?_, rfl⟩
  · apply list_view_empty_metadata.1 false exSt "L0" 0 10 "length" (-1) exListPat
    rw [show (get_patterns_hybrid false exSt "L0" 0 10 "length" (-1)).patterns
        = exListPat ::
          ((get_patterns_hybrid false exSt "L0" 0 10 "length" (-1)).patterns).tail
      from rfl]
    exact List.mem_cons_self _ _
  · exact list_view_empty_metadata.2 false exSt "L0" "A" exDetailPat rfl

/-! ## Claim C5 — which update fields are accepted -/

/-- Claim C5 counterexample: an update payload that contains the unsupported
field `pattern_data` alongside a valid `frequency` does **not** result in a
`ValidationError` (a 400): the unknown field is never inspected, the route
reaches `update_pattern_hybrid`, whose read-only guard raises
`AttributeError`, and the handler surfaces that as the 500 internal error
with the store unchanged — so the call is not rejected with a
`ValidationError` (for any message) and does not succeed either. -/
theorem update_unknown_field_no_validation_error_cex :
    route_update_pattern exSettings false exSt "L0" "A"
        [("frequency", Json.numI 5), ("pattern_data", Json.str "oops")]
      = (.error (.internal attrErrorMsg), exSt)
    ∧ ∀ m : String,
      (route_update_pattern exSettings false exSt "L0" "A"
        [("frequency", Json.numI 5), ("pattern_data", Json.str "oops")]).1
        ≠ .error (.badRequest m) := by
  refine ⟨rfl, ?_⟩
  intro m h
  rw [show (route_update_pattern exSettings false exSt "L0" "A"
      [("frequency", Json.numI 5), ("pattern_data", Json.str "oops")]).1
      = Except.error (HttpErr.internal attrErrorMsg) from rfl] at h
  exact HttpErr.noConfusion (Except.error.inj h)

/-- Finding one of the three accepted keys is unaffected by filtering the
request down to the accepted keys. -/
theorem find?_filter_accepted (k : String)
    (hk : (k == "frequency" || k == "emotives" || k == "metadata") = true) :
    ∀ request : List (String × Json),
      (request.filter (fun kv =>
        kv.1 == "frequency" || kv.1 == "emotives"
        || kv.1 == "metadata")).find? (fun kv => kv.1 == k)
      = request.find? (fun kv => kv.1 == k)
  | [] => rfl
  | kv :: rest => by
    by_cases hacc : ((fun kv : String × Json =>
        kv.1 == "frequency" || kv.1 == "emotives" || kv.1 == "metadata") kv)
        = true
    · rw [@List.filter_cons_of_pos _ (fun kv : String × Json =>
        kv.1 == "frequency" || kv.1 == "emotives" || kv.1 == "metadata")
        kv rest hacc]
      by_cases hkk : ((fun kv : String × Json => kv.1 == k) kv) = true
      · rw [@List.find?_cons_of_pos _ (fun kv : String × Json => kv.1 == k)
          kv _ hkk,
          @List.find?_cons_of_pos _ (fun kv : String × Json => kv.1 == k)
          kv _ hkk]
      · rw [@List.find?_cons_of_neg _ (fun kv : String × Json => kv.1 == k)
          kv _ hkk,
          @List.find?_cons_of_neg _ (fun kv : String × Json => kv.1 == k)
          kv _ hkk]
        exact find?_filter_accepted k hk rest
    · have hkk : ¬ ((fun kv : String × Json => kv.1 == k) kv) = true := by
        intro hcon
        have hkvk : kv.1 = k := eq_of_beq (by simpa using hcon)
        apply hacc
        show (kv.1 == "frequency" || kv.1 == "emotives"
          || kv.1 == "metadata") = true
        rw [hkvk]
        exact hk
      rw [@List.filter_cons_of_neg _ (fun kv : String × Json =>
        kv.1 == "frequency" || kv.1 == "emotives" || kv.1 == "metadata")
        kv rest hacc,
        @List.find?_cons_of_neg _ (fun kv : String × Json => kv.1 == k)
        kv _ hkk]
      exact find?_filter_accepted k hk rest

/-- The same fact for the dict lookup `jget`. -/
theorem jget_filter_accepted (k : String)
    (hk : (k == "frequency" || k == "emotives" || k == "metadata") = true)
    (request : List (String × Json)) :
    jget (request.filter (fun kv =>
      kv.1 == "frequency" || kv.1 == "emotives" || kv.1 == "metadata")) k
    = jget request k := by
  unfold jget
  exact congrArg (Option.map (fun kv => kv.2)) (find?_filter_accepted k hk request)

/-- The route's per-field type checks are unaffected by filtering the request
down to the accepted keys. -/
theorem freqFieldOk_filter (request : List (String × Json)) :
    freqFieldOk (request.filter (fun kv =>
      kv.1 == "frequency" || kv.1 == "emotives" || kv.1 == "metadata"))
    = freqFieldOk request := by
  rw [freqFieldOk, freqFieldOk, jget_filter_accepted "frequency" (by decide)]

/-- Same for the `emotives` check. -/
theorem emoFieldOk_filter (request : List (String × Json)) :
    emoFieldOk (request.filter (fun kv =>
      kv.1 == "frequency" || kv.1 == "emotives" || kv.1 == "metadata"))
    = emoFieldOk request := by
  rw [emoFieldOk, emoFieldOk, jget_filter_accepted "emotives" (by decide)]

/-- Same for the `metadata` check. -/
theorem metaFieldOk_filter (request : List (String × Json)) :
    metaFieldOk (request.filter (fun kv =>
      kv.1 == "frequency" || kv.1 == "emotives" || kv.1 == "metadata"))
    = metaFieldOk request := by
  rw [metaFieldOk, metaFieldOk, jget_filter_accepted "metadata" (by decide)]

/-- The extracted `updates` dict is unaffected by filtering the request down
to the accepted keys. -/
theorem routeUpdates_filter (request : List (String × Json)) :
    routeUpdates (request.filter (fun kv =>
      kv.1 == "frequency" || kv.1 == "emotives" || kv.1 == "metadata"))
    = routeUpdates request := by
  rw [routeUpdates, routeUpdates,
    jget_filter_accepted "frequency" (by decide),
    jget_filter_accepted "emotives" (by decide),
    jget_filter_accepted "metadata" (by decide)]

/-- A request with an accepted field yields a non-empty `updates` dict. -/
theorem routeUpdates_nonempty (request : List (String × Json))
    (h : reqHasAcceptedField request = true) :
    (routeUpdates request).isEmpty = false := by
  rcases hjf : jget request "frequency" with _ | v
  · rcases hje : jget request "emotives" with _ | v
    · rcases hjm : jget request "metadata" with _ | v
      · rw [reqHasAcceptedField, hjf, hje, hjm] at h
        simp at h
      · rw [routeUpdates, hjf, hje, hjm]
        rfl
    · rw [routeUpdates, hjf, hje]
      rfl
  · rw [routeUpdates, hjf]
    rfl

/-- Claim C5 (amended): the update route accepts only
`frequency`/`emotives`/`metadata` and never inspects other request fields:
(i) a payload none of whose fields is one of these three (on an existing
pattern) is rejected with the 400 `ValidationError` "No valid fields to
update", leaving the store unchanged; (ii) every payload behaves exactly as
the payload filtered down to the accepted fields — unknown fields are
silently ignored, never a `ValidationError`; (iii) a payload that does carry
a well-typed accepted field reaches `update_pattern_hybrid`, whose read-only
guard raises `AttributeError`, surfaced as HTTP 500 with the store unchanged
— so it neither raises a `ValidationError` nor succeeds. -/
theorem update_accepted_fields_only :
    (∀ (s : Settings) (rfail : Bool) (st : St) (kb_id pattern_name : String)
        (request : List (String × Json)),
      (get_pattern_by_id_hybrid rfail st kb_id pattern_name).isSome = true →
      (∀ kv ∈ request, kv.1 ≠ "frequency" ∧ kv.1 ≠ "emotives"
        ∧ kv.1 ≠ "metadata") →
      route_update_pattern s rfail st kb_id pattern_name request
        = (.error (.badRequest
            "No valid fields to update (frequency, emotives, metadata)"), st))
    ∧ (∀ (s : Settings) (rfail : Bool) (st : St) (kb_id pattern_name : String)
        (request : List (String × Json)),
      route_update_pattern s rfail st kb_id pattern_name request
        = route_update_pattern s rfail st kb_id pattern_name
            (request.filter (fun kv =>
              kv.1 == "frequency" || kv.1 == "emotives"
              || kv.1 == "metadata")))
    ∧ (∀ (s : Settings) (rfail : Bool) (st : St) (kb_id pattern_name : String)
        (request : List (String × Json)),
      (get_pattern_by_id_hybrid rfail st kb_id pattern_name).isSome = true →
      reqFieldChecksOk request = true →
      reqHasAcceptedField request = true →
      route_update_pattern s rfail st kb_id pattern_name request
        = (.error (.internal attrErrorMsg), st)) := by
  refine ⟨?_, ?_, ?_⟩
  · intro s rfail st kb_id pattern_name request hex hkeys
    have hnone : ∀ k : String, k = "frequency" ∨ k = "emotives"
        ∨ k = "metadata" → jget request k = none := by
      intro k hk
      rw [jget]
      rw [List.find?_eq_none.mpr ?_]
      · rfl
      · intro kv hkv
        have h3 := hkeys kv hkv
        rcases hk with rfl | rfl | rfl
        · simp [h3.1]
        · simp [h3.2.1]
        · simp [h3.2.2]
    have hfok : freqFieldOk request = true := by
      rw [freqFieldOk, hnone "frequency" (Or.inl rfl)]
    have heok : emoFieldOk request = true := by
      rw [emoFieldOk, hnone "emotives" (Or.inr (Or.inl rfl))]
    have hmok : metaFieldOk request = true := by
      rw [metaFieldOk, hnone "metadata" (Or.inr (Or.inr rfl))]
    have hupd : (routeUpdates request).isEmpty = true := by
      rw [routeUpdates, hnone "frequency" (Or.inl rfl),
        hnone "emotives" (Or.inr (Or.inl rfl)),
        hnone "metadata" (Or.inr (Or.inr rfl))]
      rfl
    rw [route_update_pattern]
    rcases hsome : get_pattern_by_id_hybrid rfail st kb_id pattern_name with
      _ | q
    · rw [hsome] at hex
      exact absurd hex (by simp)
    · simp only [hfok, heok, hmok, hupd]
      simp
  · intro s rfail st kb_id pattern_name request
    rw [route_update_pattern, route_update_pattern,
      freqFieldOk_filter request, emoFieldOk_filter request,
      metaFieldOk_filter request, routeUpdates_filter request]
  · intro s rfail st kb_id pattern_name request hex hchecks hacc
    obtain ⟨hfok, heok, hmok⟩ : freqFieldOk request = true
        ∧ emoFieldOk request = true ∧ metaFieldOk request = true := by
      simpa [reqFieldChecksOk] using hchecks
    have hne : (routeUpdates request).isEmpty = false :=
      routeUpdates_nonempty request hacc
    rw [route_update_pattern]
    rcases hsome : get_pattern_by_id_hybrid rfail st kb_id pattern_name with
      _ | q
    · rw [hsome] at hex
      exact absurd hex (by simp)
    · simp only [hfok, heok, hmok, hne, Bool.not_true, Bool.false_eq_true,
        if_false]
      rfl

/-- Witness for the amended C5 at concrete inputs: on the existing pattern
`A`, an unknown-only payload yields the 400 `ValidationError`, and a payload
carrying a valid `frequency` yields the 500 `AttributeError` with the store
unchanged. -/
theorem update_accepted_fields_only_witness :
    route_update_pattern exSettings false exSt "L0" "A" [("junk", Json.numI 1)]
      = (.error (.badRequest
          "No valid fields to update (frequency, emotives, metadata)"), exSt)
    ∧ route_update_pattern exSettings false exSt "L0" "A"
        [("frequency", Json.numI 5)]
      = (.error (.internal attrErrorMsg), exSt) :=
  ⟨update_accepted_fields_only.1 exSettings false exSt "L0" "A"
      [("junk", Json.numI 1)] rfl (by decide),
   update_accepted_fields_only.2.2 exSettings false exSt "L0" "A"
      [("frequency", Json.numI 5)] rfl rfl rfl⟩

/-! ## Claim C6 — hierarchy edge invariant -/

/-- Claim C6: for every pair of knowledge bases the edge computed by
`get_connection_details` satisfies
`connection_count ≤ min(source_pattern_count, target_symbol_count)` and both
coverage ratios lie in `[0, 1]`; in the spec's example — source patterns
`aaa/bbb/ccc` whose marker-prefixed form `PTRN|aaa` is a target symbol next
to `zzz` — the edge is `connection_count = 1`, `coverage_source = 1/3`,
`coverage_target = 1/2`.  (Coverages are stated pre-rounding; the code rounds
them to 4 decimal places for display, which cannot leave `[0, 1]`.) -/
theorem hierarchy_edge_invariant :
    (∀ (st : St) (source_kb target_kb : String),
      (get_connection_details st source_kb target_kb).connection_count
        ≤ min (get_all_pattern_names st source_kb).length
            (((get_all_symbols st target_kb).map (·.1)).dedup).length
      ∧ 0 ≤ (get_connection_details st source_kb target_kb).coverage_source
      ∧ (get_connection_details st source_kb target_kb).coverage_source ≤ 1
      ∧ 0 ≤ (get_connection_details st source_kb target_kb).coverage_target
      ∧ (get_connection_details st source_kb target_kb).coverage_target ≤ 1)
    ∧ (get_connection_details exHSt "L0" "L1").connection_count = 1
    ∧ (get_connection_details exHSt "L0" "L1").coverage_source = 1 / 3
    ∧ (get_connection_details exHSt "L0" "L1").coverage_target = 1 / 2 := by
  refine ⟨?_, rfl, ?_, ?_⟩
  · intro st skb tkb
    have hcount1 :
        (get_connection_details st skb tkb).connection_count
          ≤ (get_all_pattern_names st skb).length := by
      simp only [get_connection_details]
      calc (((get_all_pattern_names st skb).map
              (fun p => "PTRN|" ++ p)).dedup.filter _).length
          ≤ ((get_all_pattern_names st skb).map
              (fun p => "PTRN|" ++ p)).dedup.length :=
            List.length_filter_le _ _
        _ ≤ ((get_all_pattern_names st skb).map
              (fun p => "PTRN|" ++ p)).length :=
            (List.dedup_sublist _).length_le
        _ = (get_all_pattern_names st skb).length := List.length_map _ _
    have hcount2 :
        (get_connection_details st skb tkb).connection_count
          ≤ (((get_all_symbols st tkb).map (·.1)).dedup).length := by
      simp only [get_connection_details]
      have hnd : (((get_all_pattern_names st skb).map
          (fun p => "PTRN|" ++ p)).dedup.filter
          (fun s => (((get_all_symbols st tkb).map (·.1)).dedup).contains s)).Nodup :=
        List.Nodup.filter _ (List.nodup_dedup _)
      have hsub : (((get_all_pattern_names st skb).map
          (fun p => "PTRN|" ++ p)).dedup.filter
          (fun s => (((get_all_symbols st tkb).map (·.1)).dedup).contains s))
          ⊆ ((get_all_symbols st tkb).map (·.1)).dedup := by
        intro x hx
        have hc := (List.mem_filter.mp hx).2
        rcases List.contains_iff_exists_mem_beq.mp hc with ⟨a, ha, hbeq⟩
        rw [eq_of_beq hbeq]
        exact ha
      exact (List.Nodup.subperm hnd hsub).length_le
    refine ⟨le_min hcount1 hcount2, ?_, ?_, ?_, ?_⟩
    · simp only [get_connection_details]
      by_cases he : (get_all_pattern_names st skb).isEmpty = true
      · rw [if_pos he]
      · rw [if_neg he]
        positivity
    · simp only [get_connection_details]
      by_cases he : (get_all_pattern_names st skb).isEmpty = true
      · rw [if_pos he]; norm_num
      · rw [if_neg he]
        have hpos : 0 < ((get_all_pattern_names st skb).length : ℚ) := by
          have : (get_all_pattern_names st skb) ≠ [] := by
            simpa [List.isEmpty_iff] using he
          exact_mod_cast List.length_pos.mpr this
        rw [div_le_one hpos]
        exact_mod_cast hcount1
    · simp only [get_connection_details]
      by_cases he : (((get_all_symbols st tkb).map (·.1)).dedup).isEmpty = true
      · rw [if_pos he]
      · rw [if_neg he]
        positivity
    · simp only [get_connection_details]
      by_cases he : (((get_all_symbols st tkb).map (·.1)).dedup).isEmpty = true
      · rw [if_pos he]; norm_num
      · rw [if_neg he]
        have hpos : 0 < ((((get_all_symbols st tkb).map (·.1)).dedup).length : ℚ) := by
          have : (((get_all_symbols st tkb).map (·.1)).dedup) ≠ [] := by
            simpa [List.isEmpty_iff] using he
          exact_mod_cast List.length_pos.mpr this
        rw [div_le_one hpos]
        exact_mod_cast hcount2
  · have h : (get_connection_details exHSt "L0" "L1").coverage_source
        = ((1 : Nat) : ℚ) / ((3 : Nat) : ℚ) := rfl
    rw [h]; norm_num
  · have h : (get_connection_details exHSt "L0" "L1").coverage_target
        = ((1 : Nat) : ℚ) / ((2 : Nat) : ℚ) := rfl
    rw [h]; norm_num

/-! ## Claims C1/C2 — rank-by-frequency listing -/

/-- Hydrating a list of names that all exist in the kb and projecting the
names back is the identity. -/
theorem map_name_hydrate (st : St) (kb_id : String)
    (frequencies : List (String × Int)) :
    ∀ names : List String,
      (∀ n ∈ names, n ∈ (chRows st kb_id).map (·.name)) →
      ((names.filterMap (fun n => (get_pattern_by_name st kb_id n).map
          (fun p => mkListPattern p (freqLookup frequencies p.name)))).map
        (·.name)) = names
  | [], _ => rfl
  | n :: rest, h => by
    have hn := h n (List.mem_cons_self n rest)
    rcases List.mem_map.mp hn with ⟨row, hrow, hname⟩
    rcases hq : (chRows st kb_id).find? (fun p => p.name == n) with _ | q
    · exact absurd (List.find?_eq_none.mp hq row hrow) (by simp [hname])
    · have hqname : q.name = n := by
        have := List.find?_some hq
        simpa using this
      have hg : get_pattern_by_name st kb_id n = some q := hq
      rw [List.filterMap_cons, hg, Option.map_some']
      rw [List.map_cons,
        map_name_hydrate st kb_id frequencies rest
          (fun m hm => h m (List.mem_cons_of_mem n hm))]
      rw [show (mkListPattern q (freqLookup frequencies q.name)).name = q.name
        from rfl, hqname]

/-- Membership in the frequency-sorted name list is membership among the
kb's row names. -/
theorem mem_sorted_names_by_frequency (rfail : Bool) (st : St)
    (kb_id : String) (sort_order : Int) {n : String} :
    n ∈ sorted_names_by_frequency rfail st kb_id sort_order ↔
      n ∈ (chRows st kb_id).map (·.name) := by
  rw [sorted_names_by_frequency, mem_sortLe, get_all_pattern_names, mem_sortLe]

/-- Step 4+5 of the frequency path: the names of the returned page are
exactly the slice `[skip, skip+limit)` of the sorted name list. -/
theorem page_names_slice (rfail : Bool) (st : St) (kb_id : String)
    (skip limit : Nat) (sort_order : Int) :
    ((get_patterns_sorted_by_frequency rfail st kb_id skip limit
        sort_order).patterns).map (·.name)
      = ((sorted_names_by_frequency rfail st kb_id sort_order).drop skip).take
          limit := by
  apply map_name_hydrate
  intro n hn
  exact (mem_sorted_names_by_frequency rfail st kb_id sort_order).mp
    (List.mem_of_mem_drop (List.mem_of_mem_take hn))

/-- The order `sorted(key=frequency, reverse=(sort_order == -1))` realises:
primary key frequency (descending for `-1`, ascending otherwise), ties in
ascending name order — the order of the name-sorted input that the stable
sort preserves. -/
def pyFreqOrder (key : String → Int) (sort_order : Int) (a b : String) :
    Prop :=
  if sort_order == -1 then lexDesc key (fun x y => strLeB x y = true) a b
  else lexAsc key (fun x y => strLeB x y = true) a b

/-- The frequency-sorted name list is sorted by frequency with the
deterministic secondary tie-break on name. -/
theorem sorted_names_pairwise (rfail : Bool) (st : St) (kb_id : String)
    (sort_order : Int) :
    (sorted_names_by_frequency rfail st kb_id sort_order).Pairwise
      (pyFreqOrder (freq_key rfail st kb_id) sort_order) := by
  have hbase : (get_all_pattern_names st kb_id).Pairwise
      (fun a b => strLeB a b = true) :=
    sortLe_sorted strLeB_total strLeB_trans _
  by_cases hso : (sort_order == -1) = true
  · have hcmp : (fun a b : String =>
        if sort_order == -1 then
          decide (freq_key rfail st kb_id b ≤ freq_key rfail st kb_id a)
        else decide (freq_key rfail st kb_id a ≤ freq_key rfail st kb_id b))
        = (fun a b : String =>
          decide (freq_key rfail st kb_id b ≤ freq_key rfail st kb_id a)) := by
      funext a b; rw [if_pos hso]
    rw [sorted_names_by_frequency, hcmp]
    refine List.Pairwise.imp ?_
      (sortLe_lex_desc (freq_key rfail st kb_id)
        (fun a b => strLeB a b = true) hbase)
    intro a b hab
    rw [pyFreqOrder, if_pos hso]
    exact hab
  · have hcmp : (fun a b : String =>
        if sort_order == -1 then
          decide (freq_key rfail st kb_id b ≤ freq_key rfail st kb_id a)
        else decide (freq_key rfail st kb_id a ≤ freq_key rfail st kb_id b))
        = (fun a b : String =>
          decide (freq_key rfail st kb_id a ≤ freq_key rfail st kb_id b)) := by
      funext a b; rw [if_neg hso]
    rw [sorted_names_by_frequency, hcmp]
    refine List.Pairwise.imp ?_
      (sortLe_lex_asc (freq_key rfail st kb_id)
        (fun a b => strLeB a b = true) hbase)
    intro a b hab
    rw [pyFreqOrder, if_neg hso]
    exact hab

/-- Claim C1: `listPatterns` with `sortBy = frequency` delegates to the
frequency path; the returned page is exactly the slice `[skip, skip+limit)`
of the kb's full name list stably sorted by frequency (descending for
`sort_order = -1`, ascending otherwise) with the deterministic secondary
tie-break on name — so ties, pinned to ascending name order, never reorder
between calls (the listing is a pure function of the store).  The spec's
example (`A=10, B=5, C=20, D=1, E=7`, desc, skip 1, limit 2) yields full
order `C,A,E,B,D` and page `[A, E]`. -/
theorem freq_sort_page_is_slice_with_name_tiebreak :
    (∀ (rfail : Bool) (st : St) (kb_id : String) (skip limit : Nat)
        (sort_order : Int),
      get_patterns_hybrid rfail st kb_id skip limit "frequency" sort_order
        = get_patterns_sorted_by_frequency rfail st kb_id skip limit sort_order)
    ∧ (∀ (rfail : Bool) (st : St) (kb_id : String) (skip limit : Nat)
        (sort_order : Int),
      ((get_patterns_sorted_by_frequency rfail st kb_id skip limit
          sort_order).patterns).map (·.name)
        = ((sorted_names_by_frequency rfail st kb_id sort_order).drop
            skip).take limit)
    ∧ (∀ (rfail : Bool) (st : St) (kb_id : String) (sort_order : Int),
      (sorted_names_by_frequency rfail st kb_id sort_order).Pairwise
        (pyFreqOrder (freq_key rfail st kb_id) sort_order))
    ∧ sorted_names_by_frequency false exSt "L0" (-1) = ["C", "A", "E", "B", "D"]
    ∧ ((get_patterns_sorted_by_frequency false exSt "L0" 1 2 (-1)).patterns).map
        (·.name) = ["A", "E"] :=
  ⟨fun _ _ _ _ _ _ => rfl, page_names_slice, sorted_names_pairwise, rfl, rfl⟩

/-- Concatenating consecutive `lim`-sized slices that cover a list
reassembles the list. -/
theorem flatMap_slices {α : Type} :
    ∀ (k : Nat) (l : List α) (lim : Nat), 0 < lim → l.length ≤ k * lim →
      (List.range k).flatMap (fun i => ((l.drop (i * lim)).take lim)) = l := by
  intro k
  induction k with
  | zero =>
    intro l lim _ hlen
    simp only [List.range_zero, List.flatMap_nil]
    exact (List.eq_nil_of_length_eq_zero
      (Nat.le_zero.mp (by simpa using hlen))).symm
  | succ k ih =>
    intro l lim hlim hlen
    rw [List.range_succ_eq_map, List.flatMap_cons]
    simp only [Nat.zero_mul, List.drop_zero]
    rw [List.flatMap_map]
    have hstep : ((List.range k).flatMap
        (fun a => ((l.drop (Nat.succ a * lim)).take lim)))
        = (List.range k).flatMap
          (fun i => (((l.drop lim).drop (i * lim)).take lim)) := by
      apply congrArg
      funext i
      rw [List.drop_drop]
      have h2 : Nat.succ i * lim = lim + i * lim := by
        rw [Nat.succ_mul]; omega
      rw [h2]
    rw [hstep, ih (l.drop lim) lim hlim
      (by rw [List.length_drop]; rw [Nat.succ_mul] at hlen; omega)]
    exact List.take_append_drop lim l

/-- Claim C2: for every page size `limit > 0` and enough pages to cover the
kb (`k * limit ≥ total`), concatenating the pages
`skip = 0, limit; skip = limit, limit; …` of the frequency-sorted listing
yields the full frequency order exactly: the concatenated names equal the
sorted name list, which is a permutation of the kb's names and (given the
data-model invariant that names are unique per kb) duplicate-free — every
pattern appears exactly once, in order. -/
theorem freq_sort_pagination_exhaustive
    (rfail : Bool) (st : St) (kb_id : String) (sort_order : Int)
    (limit k : Nat) (hlim : 0 < limit)
    (hcov : (get_all_pattern_names st kb_id).length ≤ k * limit)
    (hnd : ((chRows st kb_id).map (·.name)).Nodup) :
    (((List.range k).flatMap (fun i =>
        (get_patterns_sorted_by_frequency rfail st kb_id (i * limit) limit
          sort_order).patterns)).map (·.name))
      = sorted_names_by_frequency rfail st kb_id sort_order
    ∧ List.Perm (sorted_names_by_frequency rfail st kb_id sort_order)
        ((chRows st kb_id).map (·.name))
    ∧ (sorted_names_by_frequency rfail st kb_id sort_order).Nodup := by
  have hperm : List.Perm (sorted_names_by_frequency rfail st kb_id sort_order)
      ((chRows st kb_id).map (·.name)) :=
    (sortLe_perm _ _).trans (sortLe_perm _ _)
  refine ⟨?_, hperm, (hperm.nodup_iff).mpr hnd⟩
  rw [List.map_flatMap]
  have hpages : ∀ i : Nat,
      ((get_patterns_sorted_by_frequency rfail st kb_id (i * limit) limit
        sort_order).patterns).map (·.name)
      = ((sorted_names_by_frequency rfail st kb_id sort_order).drop
          (i * limit)).take limit :=
    fun i => page_names_slice rfail st kb_id (i * limit) limit sort_order
  simp only [hpages]
  apply flatMap_slices k _ limit hlim
  have hlen : (sorted_names_by_frequency rfail st kb_id sort_order).length
      = (get_all_pattern_names st kb_id).length :=
    List.Perm.length_eq
      (by rw [sorted_names_by_frequency]; exact sortLe_perm _ _)
  rw [hlen]
  exact hcov

/-- Witness for C2: three pages of size two cover the five-pattern example
kb and reassemble the full order `C,A,E,B,D`. -/
theorem freq_sort_pagination_exhaustive_witness :
    0 < 2 ∧ (get_all_pattern_names exSt "L0").length ≤ 3 * 2
    ∧ ((chRows exSt "L0").map (·.name)).Nodup
    ∧ (((List.range 3).flatMap (fun i =>
        (get_patterns_sorted_by_frequency false exSt "L0" (i * 2) 2
          (-1)).patterns)).map (·.name))
        = sorted_names_by_frequency false exSt "L0" (-1) :=
  ⟨by decide, by decide, by decide,
    (freq_sort_pagination_exhaustive false exSt "L0" (-1) 2 3 (by decide)
      (by decide) (by decide)).1⟩

/-! ## Claim C7 — the composition tracer visits each node at most once -/

/-- The tracer invariant: the accumulated node names are duplicate-free and
every accumulated node's name has been recorded in the visited set. -/
def TrInv (ts : TrSt) : Prop :=
  (ts.nodes.map (·.pattern_name)).Nodup
  ∧ ∀ nd ∈ ts.nodes, nd.pattern_name ∈ ts.visited

theorem trInv_empty : TrInv { nodes := [], edges := [], visited := [] } :=
  ⟨List.nodup_nil, fun _ h => absurd h (List.not_mem_nil _)⟩

theorem nodup_append_singleton {α : Type} {l : List α} {a : α}
    (h : l.Nodup) (ha : a ∉ l) : (l ++ [a]).Nodup := by
  rw [List.nodup_append]
  refine ⟨h, List.nodup_singleton a, ?_⟩
  intro x hx hxa
  rcases List.mem_singleton.mp hxa with rfl
  exact ha hx

/-- A name whose membership test fails is not in the list. -/
theorem not_mem_of_contains_false {l : List String} {a : String}
    (h : l.contains a = false) : a ∉ l := by
  intro hmem
  have hc : l.contains a = true :=
    List.contains_iff_exists_mem_beq.mpr ⟨a, hmem, by simp⟩
  rw [hc] at h
  exact absurd h (by simp)

/-- Appending a node whose name is fresh and recording it as visited
preserves the tracer invariant (for any edge list). -/
theorem trInv_push (nodes : List TrNode) (edges : List TrEdge)
    (visited : List String) (nd : TrNode)
    (h1 : (nodes.map (·.pattern_name)).Nodup)
    (h2 : ∀ x ∈ nodes, x.pattern_name ∈ visited)
    (hnv : nd.pattern_name ∉ visited) :
    TrInv { nodes := nodes ++ [nd], edges := edges,
            visited := nd.pattern_name :: visited } := by
  constructor
  · rw [List.map_append]
    apply nodup_append_singleton h1
    intro hmem
    rcases List.mem_map.mp (by simpa using hmem) with ⟨x, hx, hxn⟩
    exact hnv (hxn ▸ h2 x hx)
  · intro x hx
    rcases List.mem_append.mp hx with hold | hnew
    · exact List.mem_cons_of_mem _ (h2 x hold)
    · rw [show x.pattern_name = nd.pattern_name by
        rcases List.mem_singleton.mp hnew with rfl; rfl]
      exact List.mem_cons_self _ _

/-- `foldlM` over `Except` preserves the tracer invariant and only grows the
visited set, provided each step does. -/
theorem foldlM_except_inv {α : Type} (g : TrSt → α → Except String TrSt)
    (hg : ∀ ts a ts', g ts a = .ok ts' → TrInv ts →
      TrInv ts' ∧ ts.visited ⊆ ts'.visited) :
    ∀ (l : List α) (ts ts' : TrSt), l.foldlM g ts = .ok ts' → TrInv ts →
      TrInv ts' ∧ ts.visited ⊆ ts'.visited
  | [], ts, ts', h, hi => by
    rw [List.foldlM_nil] at h
    injection h with h
    subst h
    exact ⟨hi, fun x hx => hx⟩
  | a :: l, ts, ts', h, hi => by
    rw [List.foldlM_cons] at h
    rcases hga : g ts a with e | mid
    · rw [hga] at h
      exact absurd h (by simp [Bind.bind, Except.bind])
    · rw [hga] at h
      have hbody : l.foldlM g mid = .ok ts' := by
        simpa [Bind.bind, Except.bind] using h
      have h1 := hg ts a mid hga hi
      have h2 := foldlM_except_inv g hg l mid ts' hbody h1.1
      exact ⟨h2.1, fun x hx => h2.2 (h1.2 hx)⟩

/-- The backward pass preserves the invariant and only grows `visited`. -/
theorem trace_ancestors_inv (rfail : Bool) (st : St) :
    ∀ (fuel : Nat) (name kb : String) (ts ts' : TrSt),
      trace_ancestors rfail st fuel name kb ts = .ok ts' → TrInv ts →
      TrInv ts' ∧ ts.visited ⊆ ts'.visited := by
  intro fuel
  induction fuel with
  | zero =>
    intro name kb ts ts' h hi
    rw [trace_ancestors] at h
    injection h with h
    subst h
    exact ⟨hi, fun x hx => hx⟩
  | succ fuel ih =>
    intro name kb ts ts' h hi
    rw [trace_ancestors] at h
    by_cases hv : ts.visited.contains name = true
    · rw [if_pos hv] at h
      injection h with h
      subst h
      exact ⟨hi, fun x hx => hx⟩
    · rw [if_neg hv] at h
      have hnv : name ∉ ts.visited := not_mem_of_contains_false (by
        cases htmp : ts.visited.contains name
        · rfl
        · exact absurd htmp hv)
      have hsub1 : ts.visited ⊆ name :: ts.visited :=
        fun x hx => List.mem_cons_of_mem name hx
      rcases hfind : get_pattern_by_name st kb name with _ | pattern
      · rw [hfind] at h
        dsimp only at h
        injection h with h
        subst h
        exact ⟨⟨hi.1, fun nd hnd => hsub1 (hi.2 nd hnd)⟩, hsub1⟩
      · rw [hfind] at h
        rcases hlvl : pyKbLevel kb with e | level
        · rw [hlvl] at h
          dsimp only at h
          exact absurd h (by simp)
        · rw [hlvl] at h
          dsimp only at h
          by_cases hrefs :
              (parse_pattern_references pattern.pattern_data).isEmpty = true
          · rw [if_pos hrefs] at h
            injection h with h
            subst h
            exact ⟨trInv_push _ _ _ _ hi.1 hi.2 hnv, hsub1⟩
          · rw [if_neg hrefs] at h
            rcases hpar : get_parent_kb kb with _ | parent_kb
            · rw [hpar] at h
              injection h with h
              subst h
              exact ⟨trInv_push _ _ _ _ hi.1 hi.2 hnv, hsub1⟩
            · rw [hpar] at h
              have hfold := foldlM_except_inv _ ?hg _ _ _ h
                (trInv_push _ _ _ _ hi.1 hi.2 hnv)
              · exact ⟨hfold.1, fun x hx => hfold.2 (hsub1 hx)⟩
              case hg =>
                intro ts0 iref ts0' hga hi0
                have hrec := ih iref.2 parent_kb _ ts0' hga
                  (⟨hi0.1, hi0.2⟩ :
                    TrInv { ts0 with edges := ts0.edges ++
                      [{ source := parent_kb ++ ":" ++ iref.2,
                         target := kb ++ ":" ++ name, position := iref.1,
                         label := s!"pos {iref.1}" }] })
                exact ⟨hrec.1, fun x hx => hrec.2 hx⟩

/-- The forward pass preserves the invariant and only grows `visited`. -/
theorem trace_descendants_inv (rfail : Bool) (st : St) :
    ∀ (fuel : Nat) (name kb : String) (ts ts' : TrSt),
      trace_descendants rfail st fuel name kb ts = .ok ts' → TrInv ts →
      TrInv ts' ∧ ts.visited ⊆ ts'.visited := by
  intro fuel
  induction fuel with
  | zero =>
    intro name kb ts ts' h hi
    rw [trace_descendants] at h
    injection h with h
    subst h
    exact ⟨hi, fun x hx => hx⟩
  | succ fuel ih =>
    intro name kb ts ts' h hi
    rw [trace_descendants] at h
    rcases hc : get_child_kb kb with _ | child_kb
    · rw [hc] at h
      injection h with h
      subst h
      exact ⟨hi, fun x hx => hx⟩
    · rw [hc] at h
      dsimp only at h
      refine foldlM_except_inv _ ?_ _ _ _ h hi
      intro ts0 pattern ts0' hga hi0
      by_cases hr : (parse_pattern_references pattern.pattern_data).contains
          name = true
      · rw [if_pos hr] at hga
        try dsimp only at hga
        by_cases hv : ts0.visited.contains pattern.name = true
        · rw [if_pos hv] at hga
          injection hga with hga
          subst hga
          exact ⟨⟨hi0.1, hi0.2⟩, fun x hx => hx⟩
        · rw [if_neg hv] at hga
          have hnv : pattern.name ∉ ts0.visited := not_mem_of_contains_false (by
            cases htmp : ts0.visited.contains pattern.name
            · rfl
            · exact absurd htmp hv)
          rcases hlvl : pyKbLevel child_kb with e | level
          · rw [hlvl] at hga
            dsimp only at hga
            exact absurd hga (by simp)
          · rw [hlvl] at hga
            dsimp only at hga
            have hrec := ih pattern.name child_kb _ ts0' hga
              (trInv_push _ _ _ _ hi0.1 hi0.2 hnv)
            exact ⟨hrec.1,
              fun x hx => hrec.2 (List.mem_cons_of_mem _ hx)⟩
      · rw [if_neg hr] at hga
        injection hga with hga
        subst hga
        exact ⟨hi0, fun x hx => hx⟩

/-- Claim C7: for every store contents (including cyclic or malformed
reference structures), every starting pattern, kb and depth bound, whenever
`trace_pattern_graph` returns a result, no `(kb_id, pattern_name)` node is
recorded twice — the node list carries pairwise-distinct pattern names, hence
pairwise-distinct `(kb_id, pattern_name)` pairs — and the reported statistics
are the (finite) node/edge counts.  Termination and call-to-call stability on
unchanged data hold by construction: the tracer is a total function of the
store (it in fact returns an error on a level-unparsable starting kb rather
than a result, which the `.ok` hypothesis covers). -/
theorem trace_visits_each_node_at_most_once
    (rfail : Bool) (st : St) (pattern_name : String) (kb_id : Option String)
    (max_depth : Int) (res : TraceResult)
    (h : trace_pattern_graph rfail st pattern_name kb_id max_depth = .ok res) :
    (res.nodes.map (fun nd => (nd.kb_id, nd.pattern_name))).Nodup
    ∧ (res.nodes.map (·.pattern_name)).Nodup
    ∧ res.statistics.total_nodes = res.nodes.length
    ∧ res.statistics.total_edges = res.edges.length := by
  unfold trace_pattern_graph at h
  rcases hres : (match kb_id with
    | some k => if k == "" then find_pattern_kb st pattern_name else some k
    | none => find_pattern_kb st pattern_name) with _ | kb
  · rw [hres] at h
    exact absurd h (by simp)
  · rw [hres] at h
    dsimp only at h
    rcases ha : trace_ancestors rfail st (max_depth + 1).toNat pattern_name kb
        { nodes := [], edges := [], visited := [] } with e | ts1
    · rw [ha] at h
      exact absurd h (by simp)
    · rw [ha] at h
      dsimp only at h
      rcases hd : trace_descendants rfail st max_depth.toNat pattern_name kb
          ts1 with e | ts2
      · rw [hd] at h
        exact absurd h (by simp)
      · rw [hd] at h
        dsimp only at h
        injection h with h
        subst h
        have h1 := trace_ancestors_inv rfail st _ pattern_name kb _ ts1 ha
          trInv_empty
        have h2 := trace_descendants_inv rfail st _ pattern_name kb ts1 ts2 hd
          h1.1
        have hnames : (ts2.nodes.map (·.pattern_name)).Nodup := h2.1.1
        refine ⟨?_, hnames, rfl, rfl⟩
        apply List.Nodup.of_map Prod.snd
        rw [List.map_map]
        exact hnames

/-- The concrete trace of the cyclic example (used by the C7 witness). -/
def exTrRes : TraceResult :=
  let stats0 : TraceStats :=
    { total_nodes := 0, total_edges := 0, max_depth_backward := 0,
      max_depth_forward := 0, origin_pattern := "", origin_kb := "" }
  (trace_pattern_graph false exTrSt "X" (some "node1_kato") 2).toOption.getD
    { nodes := [], edges := [], statistics := stats0 }

/-- Witness for C7: over the cyclic store — `X` of `node1_kato` references
itself — the trace returns a result (one node, one self-referential edge)
with duplicate-free `(kb_id, pattern_name)` nodes and matching counts. -/
theorem trace_visits_each_node_at_most_once_witness :
    trace_pattern_graph false exTrSt "X" (some "node1_kato") 2 = .ok exTrRes
    ∧ ((exTrRes.nodes.map (fun nd => (nd.kb_id, nd.pattern_name))).Nodup
      ∧ (exTrRes.nodes.map (·.pattern_name)).Nodup
      ∧ exTrRes.statistics.total_nodes = exTrRes.nodes.length
      ∧ exTrRes.statistics.total_edges = exTrRes.edges.length)
    ∧ exTrRes.statistics.total_nodes = 1
    ∧ exTrRes.statistics.total_edges = 1 :=
  ⟨rfl, trace_visits_each_node_at_most_once false exTrSt "X"
    (some "node1_kato") 2 exTrRes rfl, rfl, rfl⟩

end KatoDash
